import Mathlib

/-!
# RollingBE feedback API

A shallow embedding of the request handlers (`controllers/feedbackController.js`),
the validation chains (`middlewares/validators.js`), the error translator
(`middlewares/errorHandler.js`) and the route table (`routes/feedbackRoutes.js`).

Conventions of the embedding.

* JavaScript values that travel in request bodies, path parameters and query strings
  are the scalars of `JsVal`; a number is a safe integer (`SafeInt`, magnitude below
  2^53, where the double is exact and `String(n)` is plain decimal); arrays, nested
  objects, fractional numbers and numbers of larger magnitude are outside the embedding.
* JavaScript numbers produced by the handlers are `Option Int` where only integers and
  `NaN` can occur (`parseInt`), and `JsNum` (exact signed fractions, the infinities and
  `NaN`) where a division occurs; rounding of doubles is not modelled.
* The ORM client and the validator library are external to the repository. The ORM is
  modelled as a table whose columns have the types of the data model of the spec (the
  schema file is not among the sources): a call with a value of another type is refused
  with the client's validation error. The two e-mail functions of the validator library
  are parameters (`EmailLib`).
-/

namespace RollingBE

/-! ## JavaScript values and coercions -/

/-- A safe integer of JavaScript (`Number.isSafeInteger`): magnitude below 2^53. -/
structure SafeInt where
  val : Int
  safe : val.natAbs < 9007199254740992
  deriving DecidableEq, Repr

/-- Scalar JavaScript values; `undefined` is also the value of an absent property. A
number is a safe integer. -/
inductive JsVal where
  | undefined
  | null
  | bool (b : Bool)
  | num (n : SafeInt)
  | str (s : String)
  deriving DecidableEq, Repr

/-- JavaScript numbers where a division may occur: `NaN`, the two infinities and signed
fractions `± n / d` (so that `-0` is distinct from `0`). -/
inductive JsNum where
  | nan
  | inf (neg : Bool)
  | fin (neg : Bool) (n : Nat) (d : Nat)
  deriving DecidableEq, Repr

/-- ToBoolean: the operand test of `if (x)`, `x || y` and `!x`. -/
def JsVal.truthy : JsVal → Bool
  | .undefined => false
  | .null => false
  | .bool b => b
  | .num n => n.val != 0
  | .str s => s != ""

/-- The code points matched by `\s` and skipped by `parseInt`, `Number` and `trim`:
WhiteSpace and LineTerminator of ECMAScript. -/
def isJsSpace (c : Char) : Bool :=
  c.toNat == 9 || c.toNat == 10 || c.toNat == 11 || c.toNat == 12 || c.toNat == 13 ||
  c.toNat == 32 || c.toNat == 160 || c.toNat == 5760 ||
  (8192 ≤ c.toNat && c.toNat ≤ 8202) || c.toNat == 8232 || c.toNat == 8233 ||
  c.toNat == 8239 || c.toNat == 8287 || c.toNat == 12288 || c.toNat == 65279

/-- Value of a run of decimal digits. -/
def digitsValue (cs : List Char) : Nat :=
  cs.foldl (fun a c => 10 * a + (c.toNat - 48)) 0

/-- Value of one hexadecimal digit, if it is one. -/
def hexVal (c : Char) : Option Nat :=
  if c.isDigit then some (c.toNat - 48)
  else if 97 ≤ c.toNat && c.toNat ≤ 102 then some (c.toNat - 87)
  else if 65 ≤ c.toNat && c.toNat ≤ 70 then some (c.toNat - 55)
  else none

/-- Value of a run of digits in the given radix (digits outside the radix count 0;
callers pass runs already cut to the radix). -/
def radixValue (radix : Nat) (cs : List Char) : Nat :=
  cs.foldl (fun a c => radix * a + (hexVal c).getD 0) 0

/-- Decimal text of an integer, as `String(n)` prints a number of magnitude below 10^21
(every safe integer is one). -/
def intToChars (n : Int) : List Char :=
  match n with
  | Int.ofNat k => Nat.toDigits 10 k
  | Int.negSucc k => '-' :: Nat.toDigits 10 (k + 1)

/-- ToString of a scalar: `String(v)`. -/
def JsVal.toChars : JsVal → List Char
  | .undefined => "undefined".data
  | .null => "null".data
  | .bool true => "true".data
  | .bool false => "false".data
  | .num n => intToChars n.val
  | .str s => s.data

/-- Left trim: drop leading white space. -/
def trimStart (cs : List Char) : List Char := cs.dropWhile isJsSpace

/-- Right trim: drop trailing white space. -/
def trimEnd (cs : List Char) : List Char := (cs.reverse.dropWhile isJsSpace).reverse

/-- Both-sided trim, `validator.trim` without a character set. -/
def trimChars (cs : List Char) : List Char := trimEnd (trimStart cs)

/-- The digits of a `parseInt` argument after white space and sign were removed: a
`0x`/`0X` prefix selects radix 16, the longest run of digits of the radix is read, and
an empty run is `NaN`. -/
def parseIntDigits (cs : List Char) : Option Nat :=
  match cs with
  | '0' :: 'x' :: r =>
    let ds := r.takeWhile (fun c => (hexVal c).isSome)
    if ds.isEmpty then none else some (radixValue 16 ds)
  | '0' :: 'X' :: r =>
    let ds := r.takeWhile (fun c => (hexVal c).isSome)
    if ds.isEmpty then none else some (radixValue 16 ds)
  | _ =>
    let ds := cs.takeWhile Char.isDigit
    if ds.isEmpty then none else some (digitsValue ds)

/-- The global `parseInt(text)` without a radix; `none` is `NaN`. -/
def parseIntChars (cs : List Char) : Option Int :=
  match trimStart cs with
  | '-' :: r => (parseIntDigits r).map (fun k => - (k : Int))
  | '+' :: r => (parseIntDigits r).map (fun k => (k : Int))
  | r => (parseIntDigits r).map (fun k => (k : Int))

/-- The global `parseInt(v)`: the argument is converted with ToString first. -/
def parseInt (v : JsVal) : Option Int := parseIntChars v.toChars

/-- Optional exponent part of a decimal literal, which must reach the end of the text:
`none` when the rest is not an exponent part. -/
def parseExponent (cs : List Char) : Option Int :=
  let body : List Char → Option (List Char) := fun r =>
    if r.isEmpty || !(r.all Char.isDigit) then none else some r
  match cs with
  | [] => some 0
  | c :: r =>
    if c == 'e' || c == 'E' then
      match r with
      | '-' :: ds => (body ds).map (fun d => - (digitsValue d : Int))
      | '+' :: ds => (body ds).map (fun d => (digitsValue d : Int))
      | ds => (body ds).map (fun d => (digitsValue d : Int))
    else none

/-- The number `± m · 10^e` as a fraction. -/
def scaleDecimal (neg : Bool) (m : Nat) (e : Int) : JsNum :=
  match e with
  | Int.ofNat k => .fin neg (m * 10 ^ k) 1
  | Int.negSucc k => .fin neg m (10 ^ (k + 1))

/-- StrUnsignedDecimalLiteral: `Infinity`, or digits with an optional fraction and an
optional exponent, with at least one digit before the exponent. -/
def parseUnsignedDecimal (neg : Bool) (cs : List Char) : JsNum :=
  if cs = "Infinity".data then .inf neg
  else
    let ip := cs.takeWhile Char.isDigit
    let r1 := cs.dropWhile Char.isDigit
    let fp := match r1 with
      | '.' :: r => r.takeWhile Char.isDigit
      | _ => []
    let r2 := match r1 with
      | '.' :: r => r.dropWhile Char.isDigit
      | _ => r1
    if ip.isEmpty && fp.isEmpty then .nan
    else match parseExponent r2 with
      | none => .nan
      | some e => scaleDecimal neg (digitsValue (ip ++ fp)) (e - fp.length)

/-- Digits of a binary, octal or hexadecimal integer literal: all of the text, not empty,
every digit below the radix. -/
def parseRadixLiteral (radix : Nat) (cs : List Char) : JsNum :=
  if cs.isEmpty || !(cs.all (fun c => match hexVal c with
      | some v => decide (v < radix)
      | none => false)) then .nan
  else .fin false (radixValue radix cs) 1

/-- StringToNumber, the ToNumber conversion of a string: white space is trimmed, the
empty text is `0`, then a signed decimal literal or an unsigned `0b`/`0o`/`0x` literal
is read; anything else is `NaN`. -/
def stringToNumber (cs : List Char) : JsNum :=
  match trimChars cs with
  | [] => .fin false 0 1
  | '0' :: 'x' :: r => parseRadixLiteral 16 r
  | '0' :: 'X' :: r => parseRadixLiteral 16 r
  | '0' :: 'o' :: r => parseRadixLiteral 8 r
  | '0' :: 'O' :: r => parseRadixLiteral 8 r
  | '0' :: 'b' :: r => parseRadixLiteral 2 r
  | '0' :: 'B' :: r => parseRadixLiteral 2 r
  | '-' :: r => parseUnsignedDecimal true r
  | '+' :: r => parseUnsignedDecimal false r
  | r => parseUnsignedDecimal false r

/-- An integer as a `JsNum`. -/
def JsNum.ofInt (z : Int) : JsNum :=
  match z with
  | Int.ofNat k => .fin false k 1
  | Int.negSucc k => .fin true (k + 1) 1

/-- ToNumber of a scalar. -/
def JsVal.toNumber : JsVal → JsNum
  | .undefined => .nan
  | .null => .fin false 0 1
  | .bool true => .fin false 1 1
  | .bool false => .fin false 0 1
  | .num n => JsNum.ofInt n.val
  | .str s => stringToNumber s.data

/-- The comparison `x >= m` of a number with an integer bound (`false` on `NaN`). -/
def JsNum.geInt (x : JsNum) (m : Int) : Bool :=
  match x with
  | .nan => false
  | .inf neg => !neg
  | .fin false n d => decide (m * (d : Int) ≤ (n : Int))
  | .fin true n d => decide (m * (d : Int) ≤ - (n : Int))

/-- The comparison `x <= m` of a number with an integer bound (`false` on `NaN`). -/
def JsNum.leInt (x : JsNum) (m : Int) : Bool :=
  match x with
  | .nan => false
  | .inf neg => neg
  | .fin false n d => decide ((n : Int) ≤ m * (d : Int))
  | .fin true n d => decide (- (n : Int) ≤ m * (d : Int))

/-- The quotient `x / y` of JavaScript numbers. -/
def JsNum.div (x y : JsNum) : JsNum :=
  match x, y with
  | .nan, _ => .nan
  | _, .nan => .nan
  | .inf _, .inf _ => .nan
  | .inf a, .fin b _ _ => .inf (a != b)
  | .fin a _ _, .inf b => .fin (a != b) 0 1
  | .fin a n d, .fin b m e =>
    if m = 0 then (if n = 0 then .nan else .inf (a != b))
    else .fin (a != b) (n * e) (d * m)

/-- The function `Math.ceil`. -/
def JsNum.ceil : JsNum → JsNum
  | .nan => .nan
  | .inf neg => .inf neg
  | .fin false n d => .fin false ((n + d - 1) / d) 1
  | .fin true n d => .fin true (n / d) 1

/-! ## Requests and responses -/

/-- An Express request as the handlers read it: path parameters, query string and
parsed body, each a map from property name to value (`undefined` when absent). -/
structure Req where
  params : String → JsVal
  query : String → JsVal
  body : String → JsVal

/-- The request without parameters, query or body. -/
def Req.empty : Req :=
  { params := fun _ => .undefined, query := fun _ => .undefined, body := fun _ => .undefined }

/-- An object literal as a property map: later entries of the list are shadowed by
earlier ones, names not listed are `undefined`. -/
def obj (kvs : List (String × JsVal)) : String → JsVal :=
  fun k => match kvs.lookup k with
    | some v => v
    | none => .undefined

/-- Modelled from the spec: the columns of the Feedback entity of section 3 (the ORM
schema file is not among the sources). A column holds the value the handler passed to
storage, which accepts texts for the text columns, texts or `null` for comment and
suggestion, and an integer for `rating` (`none`, which is `NaN`, is never stored). -/
structure Feedback where
  id : Int
  name : JsVal
  email : JsVal
  eventName : JsVal
  division : JsVal
  rating : Option Int
  comment : JsVal
  suggestion : JsVal
  createdAt : Nat
  status : JsVal
  deriving DecidableEq, Repr

/-- The `pagination` object of the list response. -/
structure Pagination where
  page : Option Int
  limit : Option Int
  total : Nat
  totalPages : JsNum
  deriving DecidableEq, Repr

/-- The `data` property of a response body. -/
inductive Payload where
  | absent
  | record (f : Feedback)
  | listing (feedbacks : List Feedback) (pagination : Pagination)
  deriving DecidableEq, Repr

/-- Where a validated field lives in the request. -/
inductive Location where
  | body
  | params
  deriving DecidableEq, Repr

/-- One entry of the `errors` array produced by the validation layer. -/
structure FieldError where
  path : String
  msg : String
  value : JsVal
  location : Location
  deriving DecidableEq, Repr

/-- A JSON response: the status given to `res.status` and the properties of the object
given to `res.json`; `none` is a property that is absent or `undefined`. -/
structure Response where
  status : Int
  success : Bool
  message : String
  data : Payload
  errors : Option (List FieldError)
  error : Option String
  deriving DecidableEq, Repr

/-- The envelope `{success, message}` with a status. -/
def Response.plain (status : Int) (success : Bool) (message : String) : Response :=
  { status := status, success := success, message := message, data := .absent,
    errors := none, error := none }

/-! ## Error translator (`middlewares/errorHandler.js`) -/

/-- The class of a thrown error, as the `instanceof` tests of the translator see it. -/
inductive ErrClass where
  | knownRequest
  | validation
  | other
  deriving DecidableEq, Repr

/-- A thrown error: its class and the properties the translator reads. `statusCode` is a
number or absent, `message` and `stack` are text or absent. -/
structure Err where
  cls : ErrClass
  code : String
  statusCode : Option Int
  message : Option String
  stack : Option String
  deriving DecidableEq, Repr

/-- The expression `process.env.NODE_ENV === 'development' ? detail : undefined`. -/
def devDetail (nodeEnv : Option String) (detail : Option String) : Option String :=
  if nodeEnv = some "development" then detail else none

/-- The expression `err.statusCode || 500`. -/
def statusOrDefault (statusCode : Option Int) : Int :=
  match statusCode with
  | some c => if c != 0 then c else 500
  | none => 500

/-- The expression `err.message || 'Internal server error'`. -/
def messageOrDefault (message : Option String) : String :=
  match message with
  | some m => if m != "" then m else "Internal server error"
  | none => "Internal server error"

/-- The function `errorHandler(err, req, res, next)`, with `process.env.NODE_ENV` as an
argument. -/
def errorHandler (nodeEnv : Option String) (err : Err) : Response :=
  match err.cls with
  | .knownRequest =>
    if err.code = "P2002" then
      { status := 409, success := false, message := "A record with this data already exists",
        data := .absent, errors := none, error := devDetail nodeEnv err.message }
    else if err.code = "P2025" then
      { status := 404, success := false, message := "Record not found",
        data := .absent, errors := none, error := devDetail nodeEnv err.message }
    else
      { status := 400, success := false, message := "Database error occurred",
        data := .absent, errors := none, error := devDetail nodeEnv err.message }
  | .validation =>
    { status := 400, success := false, message := "Validation error",
      data := .absent, errors := none, error := devDetail nodeEnv err.message }
  | .other =>
    { status := statusOrDefault err.statusCode, success := false,
      message := messageOrDefault err.message,
      data := .absent, errors := none, error := devDetail nodeEnv err.stack }

/-! ## Storage (the ORM client)

The client is external to the repository. It is modelled as a table of `Feedback` rows
with an auto-increment counter. An argument that does not have the type its place asks
for is refused by the client, which throws its validation error (the storage
input-shape error of section 4.3 of the spec): a `NaN` where an integer is expected (an
id, `skip`, `take`, a rating), a negative `skip`, a value that is not a text for a text
column, a value that is neither a text nor `null` for a nullable text column. A mutation
of a row that does not exist throws the record-not-found error. -/

/-- The table and its auto-increment counter. -/
structure Db where
  rows : List Feedback
  nextId : Int
  deriving DecidableEq, Repr

/-- The empty table; ids start at 1. -/
def Db.empty : Db := { rows := [], nextId := 1 }

/-- The errors the storage client throws: `PrismaClientValidationError`, and
`PrismaClientKnownRequestError` with code `P2025`. -/
inductive StorageFault where
  | invalidArgument
  | recordNotFound
  deriving DecidableEq, Repr

/-- The thrown storage error as the translator sees it, with the client's message and
stack text. -/
def StorageFault.toErr (f : StorageFault) (message stack : Option String) : Err :=
  match f with
  | .invalidArgument =>
    { cls := .validation, code := "", statusCode := none, message := message, stack := stack }
  | .recordNotFound =>
    { cls := .knownRequest, code := "P2025", statusCode := none, message := message,
      stack := stack }

/-- The storage calls a handler issues, in order. -/
inductive StorageCall where
  | findMany
  | count
  | findUnique (id : Option Int)
  | create
  | update (id : Option Int)
  | delete (id : Option Int)
  deriving DecidableEq, Repr

/-- The `where` object of the list query; `none` is a key that was not set. -/
structure Where where
  status : Option JsVal
  division : Option JsVal
  deriving DecidableEq, Repr

/-- Does a column value satisfy an equality condition of `where`. -/
def condHolds (cond : Option JsVal) (col : JsVal) : Bool :=
  match cond with
  | none => true
  | some v => decide (col = v)

/-- The rows selected by `where`. -/
def Db.selectRows (db : Db) (w : Where) : List Feedback :=
  db.rows.filter (fun r => condHolds w.status r.status && condHolds w.division r.division)

/-- The order `createdAt: 'desc'`. -/
def newerFirst (a b : Feedback) : Prop := b.createdAt ≤ a.createdAt

instance : DecidableRel newerFirst :=
  fun a b => inferInstanceAs (Decidable (b.createdAt ≤ a.createdAt))

/-- The call `findMany({where, skip, take, orderBy: {createdAt: 'desc'}})`: the selected
rows, newest first (rows of equal time keep their table order), `skip` rows dropped and
at most `take` kept; a negative `take` counts from the end of the list. -/
def Db.findMany (db : Db) (w : Where) (skip take : Option Int) :
    Except StorageFault (List Feedback) :=
  match skip, take with
  | some s, some t =>
    if s < 0 then .error .invalidArgument
    else
      let sorted := (db.selectRows w).insertionSort newerFirst
      if 0 ≤ t then .ok ((sorted.drop s.toNat).take t.toNat)
      else .ok (((sorted.reverse.drop s.toNat).take (-t).toNat).reverse)
  | _, _ => .error .invalidArgument

/-- The call `count({where})`. -/
def Db.count (db : Db) (w : Where) : Nat := (db.selectRows w).length

/-- The call `findUnique({where: {id}})`; `none` in the result is `null`. -/
def Db.findUnique (db : Db) (id : Option Int) : Except StorageFault (Option Feedback) :=
  match id with
  | some i => .ok (db.rows.find? (fun r => r.id == i))
  | none => .error .invalidArgument

/-- The `data` object of `create`. -/
structure CreateData where
  name : JsVal
  email : JsVal
  eventName : JsVal
  division : JsVal
  rating : Option Int
  comment : JsVal
  suggestion : JsVal
  deriving DecidableEq, Repr

/-- A text column accepts a text only. -/
def isText : JsVal → Bool
  | .str _ => true
  | _ => false

/-- A nullable text column accepts a text or `null`. -/
def isNullableText : JsVal → Bool
  | .null => true
  | .str _ => true
  | _ => false

/-- Modelled from the spec: does the `data` of a `create` have the types of the data
model of section 3: texts for name, email, eventName and division, an integer rating,
texts or `null` for comment and suggestion. -/
def CreateData.accepted (d : CreateData) : Bool :=
  isText d.name && isText d.email && isText d.eventName && isText d.division &&
  d.rating.isSome && isNullableText d.comment && isNullableText d.suggestion

/-- Modelled from the spec: the row `create` stores. The schema defaults are taken from
the data model of section 3: `id` generated, `createdAt` set by storage at creation,
`status` defaulting to `open`. -/
def newRow (id : Int) (now : Nat) (d : CreateData) : Feedback :=
  { id := id, name := d.name, email := d.email, eventName := d.eventName,
    division := d.division, rating := d.rating, comment := d.comment,
    suggestion := d.suggestion, createdAt := now, status := .str "open" }

/-- The call `create({data})` at time `now`: the new row and the new table, or the
validation error when the data is refused. -/
def Db.create (db : Db) (now : Nat) (d : CreateData) : Except StorageFault (Feedback × Db) :=
  if d.accepted then
    .ok (newRow db.nextId now d,
         { rows := db.rows ++ [newRow db.nextId now d], nextId := db.nextId + 1 })
  else .error .invalidArgument

/-- The `data` object of `update`; `none` is a key that was not set. -/
structure UpdateData where
  eventName : Option JsVal
  division : Option JsVal
  rating : Option (Option Int)
  comment : Option JsVal
  suggestion : Option JsVal
  status : Option JsVal
  deriving DecidableEq, Repr

/-- Modelled from the spec: does the `data` of an `update` have, for every key that is
set, the type of its column in the data model of section 3. -/
def UpdateData.accepted (d : UpdateData) : Bool :=
  d.eventName.all isText && d.division.all isText && d.rating.all Option.isSome &&
  d.comment.all isNullableText && d.suggestion.all isNullableText && d.status.all isText

/-- The row after `data` was applied: a key that is set replaces the column. -/
def patchRow (r : Feedback) (d : UpdateData) : Feedback :=
  { r with eventName := d.eventName.getD r.eventName,
           division := d.division.getD r.division,
           rating := d.rating.getD r.rating,
           comment := d.comment.getD r.comment,
           suggestion := d.suggestion.getD r.suggestion,
           status := d.status.getD r.status }

/-- The call `update({where: {id}, data})`: the updated row and the new table, the
validation error when an argument is refused, the record-not-found error when no row
has the id. -/
def Db.update (db : Db) (id : Option Int) (d : UpdateData) :
    Except StorageFault (Feedback × Db) :=
  match id with
  | none => .error .invalidArgument
  | some i =>
    if d.accepted then
      match db.rows.find? (fun r => r.id == i) with
      | none => .error .recordNotFound
      | some r =>
        .ok (patchRow r d,
             { db with rows := db.rows.map (fun x => if x.id == i then patchRow x d else x) })
    else .error .invalidArgument

/-- The call `delete({where: {id}})`: the new table. -/
def Db.delete (db : Db) (id : Option Int) : Except StorageFault Db :=
  match id with
  | none => .error .invalidArgument
  | some i =>
    match db.rows.find? (fun r => r.id == i) with
    | none => .error .recordNotFound
    | some _ => .ok { db with rows := db.rows.filter (fun x => !(x.id == i)) }

/-! ## Resource handlers (`controllers/feedbackController.js`) -/

/-- What a handler did with the request: it sent a response, or its `catch` passed a
thrown storage error to `next`. -/
inductive Reply where
  | sent (res : Response)
  | forwarded (fault : StorageFault)
  deriving DecidableEq, Repr

/-- The result of running a handler: its reply, the table afterwards and the storage
calls it issued. -/
structure Outcome where
  reply : Reply
  db : Db
  calls : List StorageCall
  deriving DecidableEq, Repr

/-- The body `{success: false, message: 'Feedback not found'}` with status 404. -/
def notFoundResponse : Response := Response.plain 404 false "Feedback not found"

/-- A destructuring default `x = d`: the default replaces `undefined` only. -/
def orDefault (v d : JsVal) : JsVal :=
  if v = .undefined then d else v

/-- A key of `where` set under `if (v)`. -/
def whenTruthy (v : JsVal) : Option JsVal :=
  if v.truthy then some v else none

/-- The product `(parseInt(page) - 1) * parseInt(limit)`; `none` is `NaN`. -/
def skipOf (page limit : JsVal) : Option Int :=
  match parseInt page, parseInt limit with
  | some p, some l => some ((p - 1) * l)
  | _, _ => none

/-- The handler `getAllFeedbacks`. -/
def getAllFeedbacks (db : Db) (req : Req) : Outcome :=
  let status := req.query "status"
  let division := req.query "division"
  let page := orDefault (req.query "page") (.num ⟨1, by decide⟩)
  let limit := orDefault (req.query "limit") (.num ⟨10, by decide⟩)
  let w : Where := { status := whenTruthy status, division := whenTruthy division }
  let skip := skipOf page limit
  let take := parseInt limit
  match db.findMany w skip take with
  | .error f => { reply := .forwarded f, db := db, calls := [.findMany, .count] }
  | .ok feedbacks =>
    { reply := .sent
        { status := 200, success := true, message := "Feedbacks retrieved successfully",
          data := .listing feedbacks
            { page := parseInt page, limit := parseInt limit, total := db.count w,
              totalPages := ((JsNum.ofInt (db.count w)).div limit.toNumber).ceil },
          errors := none, error := none },
      db := db, calls := [.findMany, .count] }

/-- The handler `getFeedbackById`. -/
def getFeedbackById (db : Db) (req : Req) : Outcome :=
  let id := parseInt (req.params "id")
  match db.findUnique id with
  | .error f => { reply := .forwarded f, db := db, calls := [.findUnique id] }
  | .ok none => { reply := .sent notFoundResponse, db := db, calls := [.findUnique id] }
  | .ok (some feedback) =>
    { reply := .sent
        { status := 200, success := true, message := "Feedback retrieved successfully",
          data := .record feedback, errors := none, error := none },
      db := db, calls := [.findUnique id] }

/-- The expression `x || null`. -/
def orNull (v : JsVal) : JsVal :=
  if v.truthy then v else .null

/-- The `data` object `createFeedback` builds from the body. -/
def createData (body : String → JsVal) : CreateData :=
  { name := body "name", email := body "email", eventName := body "eventName",
    division := body "division", rating := parseInt (body "rating"),
    comment := orNull (body "comment"), suggestion := orNull (body "suggestion") }

/-- The handler `createFeedback`; `now` is the time at which storage creates the row. -/
def createFeedback (db : Db) (now : Nat) (req : Req) : Outcome :=
  match db.create now (createData req.body) with
  | .error f => { reply := .forwarded f, db := db, calls := [.create] }
  | .ok (feedback, db2) =>
    { reply := .sent
        { status := 201, success := true, message := "Feedback created successfully",
          data := .record feedback, errors := none, error := none },
      db := db2, calls := [.create] }

/-- A key of `updateData` set under `if (v !== undefined)`. -/
def whenDefined (v : JsVal) : Option JsVal :=
  if v = .undefined then none else some v

/-- The `updateData` object `updateFeedback` builds from the body. -/
def updateData (body : String → JsVal) : UpdateData :=
  { eventName := whenDefined (body "eventName"),
    division := whenDefined (body "division"),
    rating := (whenDefined (body "rating")).map parseInt,
    comment := whenDefined (body "comment"),
    suggestion := whenDefined (body "suggestion"),
    status := whenDefined (body "status") }

/-- The handler `updateFeedback`. -/
def updateFeedback (db : Db) (req : Req) : Outcome :=
  let id := parseInt (req.params "id")
  match db.findUnique id with
  | .error f => { reply := .forwarded f, db := db, calls := [.findUnique id] }
  | .ok none => { reply := .sent notFoundResponse, db := db, calls := [.findUnique id] }
  | .ok (some _) =>
    match db.update id (updateData req.body) with
    | .error f => { reply := .forwarded f, db := db, calls := [.findUnique id, .update id] }
    | .ok (feedback, db2) =>
      { reply := .sent
          { status := 200, success := true, message := "Feedback updated successfully",
            data := .record feedback, errors := none, error := none },
        db := db2, calls := [.findUnique id, .update id] }

/-- The handler `deleteFeedback`. -/
def deleteFeedback (db : Db) (req : Req) : Outcome :=
  let id := parseInt (req.params "id")
  match db.findUnique id with
  | .error f => { reply := .forwarded f, db := db, calls := [.findUnique id] }
  | .ok none => { reply := .sent notFoundResponse, db := db, calls := [.findUnique id] }
  | .ok (some _) =>
    match db.delete id with
    | .error f => { reply := .forwarded f, db := db, calls := [.findUnique id, .delete id] }
    | .ok db2 =>
      { reply := .sent (Response.plain 200 true "Feedback deleted successfully"),
        db := db2, calls := [.findUnique id, .delete id] }

/-! ## Validation layer (`middlewares/validators.js`)

The rule chains are data (`Chain`), run by `runChain` the way the validator library runs
them: every step of a chain runs in order on the current value of the field, a sanitizer
replaces the value, a validator that fails adds an error and the chain goes on; an
optional chain is skipped when the field is `undefined`. Validators and sanitizers of
the library work on the text of the value. -/

/-- The two e-mail functions of the validator library, taken as parameters:
`isEmail(text)` and `normalizeEmail(text)` (whose result is a text, or `false`). -/
structure EmailLib where
  isEmail : String → Bool
  normalizeEmail : String → JsVal

/-- One step of a rule chain; a validator carries the message of its `withMessage`. -/
inductive Step where
  | trim
  | normalizeEmail
  | notEmpty (msg : String)
  | isLength (max : Nat) (msg : String)
  | isEmail (msg : String)
  | isIn (allowed : List String) (msg : String)
  | isInt (min : Option Int) (max : Option Int) (msg : String)
  | isString (msg : String)
  deriving DecidableEq, Repr

/-- A rule chain: `body(field)` or `param(field)`, whether `.optional()` was called, and
the steps in source order. -/
structure Chain where
  location : Location
  field : String
  optional : Bool
  steps : List Step
  deriving DecidableEq, Repr

/-- The text a validator or sanitizer of the library sees: the empty text for
`undefined` and `null`, `String(v)` otherwise. -/
def fieldText : JsVal → List Char
  | .undefined => []
  | .null => []
  | v => v.toChars

/-- The length `isLength` measures: code points, variation selectors not counted. -/
def charCount (cs : List Char) : Nat :=
  (cs.filter (fun c => !(c.toNat == 65039 || c.toNat == 65038))).length

/-- The pattern of `isInt`: an optional sign and one or more decimal digits. -/
def matchesInt (cs : List Char) : Bool :=
  match cs with
  | '-' :: r => !r.isEmpty && r.all Char.isDigit
  | '+' :: r => !r.isEmpty && r.all Char.isDigit
  | r => !r.isEmpty && r.all Char.isDigit

/-- The validator `isInt(text, {min, max})`: the pattern, and `text >= min`,
`text <= max` for the bounds that are given. -/
def isIntText (min max : Option Int) (cs : List Char) : Bool :=
  matchesInt cs &&
  (match min with
    | none => true
    | some m => (stringToNumber cs).geInt m) &&
  (match max with
    | none => true
    | some m => (stringToNumber cs).leInt m)

/-- Does a validator step accept the value (sanitizers accept everything). -/
def Step.accepts (L : EmailLib) (st : Step) (v : JsVal) : Bool :=
  match st with
  | .trim => true
  | .normalizeEmail => true
  | .notEmpty _ => !(fieldText v).isEmpty
  | .isLength max _ => decide (charCount (fieldText v) ≤ max)
  | .isEmail _ => L.isEmail (String.mk (fieldText v))
  | .isIn allowed _ => decide (String.mk (fieldText v) ∈ allowed)
  | .isInt min max _ => isIntText min max (fieldText v)
  | .isString _ =>
    match v with
    | .str _ => true
    | _ => false

/-- The value after a step: a sanitizer replaces it, a validator leaves it. -/
def Step.sanitize (L : EmailLib) (st : Step) (v : JsVal) : JsVal :=
  match st with
  | .trim => .str (String.mk (trimChars (fieldText v)))
  | .normalizeEmail => L.normalizeEmail (String.mk (fieldText v))
  | _ => v

/-- The message of a validator step. -/
def Step.message : Step → String
  | .trim => ""
  | .normalizeEmail => ""
  | .notEmpty msg => msg
  | .isLength _ msg => msg
  | .isEmail msg => msg
  | .isIn _ msg => msg
  | .isInt _ _ msg => msg
  | .isString msg => msg

/-- Read a field of the request. -/
def Req.get (req : Req) (loc : Location) (field : String) : JsVal :=
  match loc with
  | .body => req.body field
  | .params => req.params field

/-- Write a field of the request. -/
def Req.set (req : Req) (loc : Location) (field : String) (v : JsVal) : Req :=
  match loc with
  | .body => { req with body := Function.update req.body field v }
  | .params => { req with params := Function.update req.params field v }

/-- Run the steps of a chain on a value: the final value and the errors, in order. -/
def runSteps (L : EmailLib) (loc : Location) (field : String) :
    List Step → JsVal → JsVal × List FieldError
  | [], v => (v, [])
  | st :: rest, v =>
    let v2 := st.sanitize L v
    let out := runSteps L loc field rest v2
    if st.accepts L v then out
    else (out.1, { path := field, msg := st.message, value := v, location := loc } :: out.2)

/-- Run one chain on the request: the request with the sanitized field written back, and
the errors of the chain. -/
def runChain (L : EmailLib) (c : Chain) (req : Req) : Req × List FieldError :=
  let v := req.get c.location c.field
  if c.optional && v = .undefined then (req, [])
  else
    let out := runSteps L c.location c.field c.steps v
    (req.set c.location c.field out.1, out.2)

/-- Run the chains of a route in order, collecting errors. -/
def runChains (L : EmailLib) : List Chain → Req → Req × List FieldError
  | [], req => (req, [])
  | c :: rest, req =>
    let r1 := runChain L c req
    let r2 := runChains L rest r1.1
    (r2.1, r1.2 ++ r2.2)

/-- The middleware `validate`: the 400 response when there are errors, `none` (`next()`)
otherwise. -/
def validate (errors : List FieldError) : Option Response :=
  if errors.isEmpty then none
  else some { status := 400, success := false, message := "Validation failed",
              data := .absent, errors := some errors, error := none }

/-- The closed list of divisions. -/
def divisions : List String := ["LnT", "Eeo", "PR", "HRD", "AnD"]

/-- The closed list of statuses. -/
def statuses : List String := ["open", "in_review", "resolved"]

/-- The rule chains of `createFeedbackValidation`. -/
def createFeedbackValidation : List Chain :=
  [ { location := .body, field := "name", optional := false,
      steps := [.trim, .notEmpty "Name is required",
                .isLength 255 "Name must be less than 255 characters"] },
    { location := .body, field := "email", optional := false,
      steps := [.trim, .notEmpty "Email is required", .isEmail "Must be a valid email",
                .normalizeEmail] },
    { location := .body, field := "eventName", optional := false,
      steps := [.trim, .notEmpty "Event name is required",
                .isLength 255 "Event name must be less than 255 characters"] },
    { location := .body, field := "division", optional := false,
      steps := [.notEmpty "Division is required",
                .isIn divisions "Division must be one of: LnT, Eeo, PR, HRD, AnD"] },
    { location := .body, field := "rating", optional := false,
      steps := [.notEmpty "Rating is required",
                .isInt (some 1) (some 5) "Rating must be an integer between 1 and 5"] },
    { location := .body, field := "comment", optional := true,
      steps := [.trim, .isString "Comment must be a string"] },
    { location := .body, field := "suggestion", optional := true,
      steps := [.trim, .isString "Suggestion must be a string"] } ]

/-- The rule chains of `updateFeedbackValidation`. -/
def updateFeedbackValidation : List Chain :=
  [ { location := .params, field := "id", optional := false,
      steps := [.isInt (some 1) none "ID must be a valid positive integer"] },
    { location := .body, field := "eventName", optional := true,
      steps := [.trim, .notEmpty "Event name cannot be empty if provided",
                .isLength 255 "Event name must be less than 255 characters"] },
    { location := .body, field := "division", optional := true,
      steps := [.isIn divisions "Division must be one of: LnT, Eeo, PR, HRD, AnD"] },
    { location := .body, field := "rating", optional := true,
      steps := [.isInt (some 1) (some 5) "Rating must be an integer between 1 and 5"] },
    { location := .body, field := "comment", optional := true,
      steps := [.trim, .isString "Comment must be a string"] },
    { location := .body, field := "suggestion", optional := true,
      steps := [.trim, .isString "Suggestion must be a string"] },
    { location := .body, field := "status", optional := true,
      steps := [.isIn statuses "Status must be one of: open, in_review, resolved"] } ]

/-- The rule chains of `idParamValidation`. -/
def idParamValidation : List Chain :=
  [ { location := .params, field := "id", optional := false,
      steps := [.isInt (some 1) none "ID must be a valid positive integer"] } ]

/-! ## Route table (`routes/feedbackRoutes.js`) -/

/-- A route with a validation chain: the chains run, `validate` answers 400 when there
are errors, otherwise the handler runs on the sanitized request. -/
def guarded (L : EmailLib) (chains : List Chain) (handler : Req → Outcome) (db : Db)
    (req : Req) : Outcome :=
  let checked := runChains L chains req
  match validate checked.2 with
  | some res => { reply := .sent res, db := db, calls := [] }
  | none => handler checked.1

/-- The route `GET /`. -/
def routeGetAll (db : Db) (req : Req) : Outcome := getAllFeedbacks db req

/-- The route `GET /:id`. -/
def routeGetById (L : EmailLib) (db : Db) (req : Req) : Outcome :=
  guarded L idParamValidation (getFeedbackById db) db req

/-- The route `POST /`. -/
def routePost (L : EmailLib) (db : Db) (now : Nat) (req : Req) : Outcome :=
  guarded L createFeedbackValidation (createFeedback db now) db req

/-- The route `PUT /:id`. -/
def routePut (L : EmailLib) (db : Db) (req : Req) : Outcome :=
  guarded L updateFeedbackValidation (updateFeedback db) db req

/-- The route `DELETE /:id`. -/
def routeDelete (L : EmailLib) (db : Db) (req : Req) : Outcome :=
  guarded L idParamValidation (deleteFeedback db) db req

/-! ## Specification-side definitions and fixtures for concrete evaluation -/

/-- An instance of the e-mail functions for evaluating examples. It knows one address,
`john@x.com`, which the validator library accepts and normalises to itself. -/
def sampleEmailLib : EmailLib :=
  { isEmail := fun s => s == "john@x.com",
    normalizeEmail := fun s => if s == "john@x.com" then .str s else .bool false }

/-- A thrown error that is not a storage error and carries `statusCode: 0`. -/
def errStatusZero : Err :=
  { cls := .other, code := "", statusCode := some 0, message := some "teapot",
    stack := some "Error: teapot" }

/-- A row used in examples. -/
def sampleRow (id : Int) (createdAt : Nat) : Feedback :=
  { id := id, name := .str "John Doe", email := .str "john@x.com",
    eventName := .str "Workshop", division := .str "LnT", rating := some 5,
    comment := .null, suggestion := .null, createdAt := createdAt, status := .str "open" }

/-- A request with path parameter `id` and a body. -/
def reqWithId (id : String) (body : List (String × JsVal)) : Req :=
  { Req.empty with params := obj [("id", .str id)], body := obj body }

/-- The row the claim describes after an update with the given body: each of eventName,
division, rating, comment, suggestion and status takes the value of the body when the
body has the field (rating as its integer value) and keeps its value otherwise; id, name,
email and createdAt keep their values. -/
def updatedAsSpecified (body : String → JsVal) (r : Feedback) : Feedback :=
  { id := r.id, name := r.name, email := r.email,
    eventName := if body "eventName" = .undefined then r.eventName else body "eventName",
    division := if body "division" = .undefined then r.division else body "division",
    rating := if body "rating" = .undefined then r.rating else parseInt (body "rating"),
    comment := if body "comment" = .undefined then r.comment else body "comment",
    suggestion := if body "suggestion" = .undefined then r.suggestion else body "suggestion",
    createdAt := r.createdAt,
    status := if body "status" = .undefined then r.status else body "status" }

/-- A request with a query string only. -/
def reqWithQuery (query : List (String × JsVal)) : Req :=
  { Req.empty with query := obj query }

/-- The rows the claim selects: the equality filter on status and division, each applied
only when its query field is a non-empty text. -/
def matchingRows (db : Db) (status division : JsVal) : List Feedback :=
  db.rows.filter (fun r =>
    decide ((status = .undefined ∨ status = .str "" ∨ r.status = status) ∧
            (division = .undefined ∨ division = .str "" ∨ r.division = division)))

/-- A query field as the query-string parser delivers it: absent or a text. -/
def TextOrAbsent (v : JsVal) : Prop := v = .undefined ∨ ∃ s, v = .str s

instance : IsTotal Feedback newerFirst := ⟨fun a b => Nat.le_total b.createdAt a.createdAt⟩

instance : IsTrans Feedback newerFirst :=
  ⟨fun _ _ _ hab hbc => Nat.le_trans hbc hab⟩

/-- Twelve rows with ids 1 to 12, created at times 101 to 112. -/
def twelveRows : List Feedback :=
  (List.range 12).map (fun k : Nat => sampleRow (Int.ofNat k + 1) (101 + k))

/-- Do all validators of a list of steps accept, each at the value the earlier
sanitizers produced. -/
def stepsAccept (L : EmailLib) : List Step → JsVal → Bool
  | [], _ => true
  | st :: rest, v => st.accepts L v && stepsAccept L rest (st.sanitize L v)

/-- The value of a field after all sanitizers of a list of steps. -/
def stepsValue (L : EmailLib) : List Step → JsVal → JsVal
  | [], v => v
  | st :: rest, v => stepsValue L rest (st.sanitize L v)

/-- Is a chain skipped for this value of its field. -/
def Chain.skips (c : Chain) (v : JsVal) : Bool := c.optional && decide (v = .undefined)

/-- Does a chain produce no error for this value of its field. -/
def Chain.passes (L : EmailLib) (c : Chain) (v : JsVal) : Bool :=
  c.skips v || stepsAccept L c.steps v

/-- The value a chain leaves in its field. -/
def Chain.value (L : EmailLib) (c : Chain) (v : JsVal) : JsVal :=
  if c.skips v then v else stepsValue L c.steps v

/-- The errors a chain produces for this value of its field. -/
def Chain.errorsAt (L : EmailLib) (c : Chain) (v : JsVal) : List FieldError :=
  if c.skips v then [] else (runSteps L c.location c.field c.steps v).2

/-- The errors of a list of chains, each at the value its field has in the request. -/
def allErrors (L : EmailLib) : List Chain → Req → List FieldError
  | [], _ => []
  | c :: rest, req => c.errorsAt L (req.get c.location c.field) ++ allErrors L rest req

/-- The field a chain reads and writes. -/
def Chain.key (c : Chain) : Location × String := (c.location, c.field)

/-- The value a field has after the chains of a route ran. -/
def valueAfter (L : EmailLib) (cs : List Chain) (loc : Location) (f : String) (v : JsVal) :
    JsVal :=
  match cs.find? (fun c => decide (c.key = (loc, f))) with
  | some c => c.value L v
  | none => v

/-- A run of decimal digits that is not empty. -/
def IsDigits (ds : List Char) : Prop := ds ≠ [] ∧ ds.all Char.isDigit = true

/-- The 400 response of `validate` for a list of errors. -/
def validationFailed (es : List FieldError) : Response :=
  { status := 400, success := false, message := "Validation failed", data := .absent,
    errors := some es, error := none }

/-- The value reads as an integer between 1 and 5: its text is an optionally signed
decimal numeral and `parseInt` gives a number in the range. -/
def RatingInRange (v : JsVal) : Prop :=
  matchesInt (fieldText v) = true ∧ ∃ n : Int, parseInt v = some n ∧ 1 ≤ n ∧ n ≤ 5

/-- The chain `body('rating')` of the create rules. -/
def createRatingChain : Chain :=
  { location := .body, field := "rating", optional := false,
    steps := [.notEmpty "Rating is required",
              .isInt (some 1) (some 5) "Rating must be an integer between 1 and 5"] }

/-- A create request that is valid except for its rating, 6. -/
def reqRatingSix : Req :=
  { Req.empty with body := obj [("name", .str "John Doe"), ("email", .str "john@x.com"),
      ("eventName", .str "Workshop"), ("division", .str "LnT"), ("rating", .num ⟨6, by decide⟩)] }

/-- The required fields of a create request. -/
def requiredFields : List String := ["name", "email", "eventName", "division", "rating"]

/-- A required field is missing from the request: it is absent, or, for the fields that
are trimmed before the non-empty test, its text is empty after trimming. -/
def Missing (req : Req) (f : String) : Prop :=
  req.body f = .undefined ∨
  (f ∈ ["name", "email", "eventName"] ∧ trimChars (fieldText (req.body f)) = [])

/-- A create request with eventName and division only, and a blank name. -/
def reqMissingThree : Req :=
  { Req.empty with body := obj [("name", .str "   "), ("eventName", .str "Workshop"),
      ("division", .str "LnT")] }

/-- A list of allowed texts each of which has a character that is neither a digit nor a
minus sign, and none of which is `true` or `false`. -/
def textOnly (allowed : List String) : Bool :=
  allowed.all (fun a => a.data.any (fun c => !(c.isDigit || c == '-')) &&
    a != "true" && a != "false")

/-- The path parameter reads as a positive integer. -/
def PositiveId (v : JsVal) : Prop :=
  matchesInt (fieldText v) = true ∧ ∃ n : Int, parseInt v = some n ∧ 1 ≤ n

/-- An update request breaks a rule of the update route: the id is not a positive
integer, or a field that is present breaks its constraint: eventName empty after
trimming or longer than 255 characters, division not one of the five divisions, rating
not an integer between 1 and 5, status not one of the three statuses. -/
def UpdateViolation (req : Req) : Prop :=
  ¬ PositiveId (req.params "id") ∨
  (req.body "eventName" ≠ .undefined ∧
    (trimChars (fieldText (req.body "eventName")) = [] ∨
     255 < charCount (trimChars (fieldText (req.body "eventName"))))) ∨
  (req.body "division" ≠ .undefined ∧ ¬ ∃ d ∈ divisions, req.body "division" = .str d) ∨
  (req.body "rating" ≠ .undefined ∧ ¬ RatingInRange (req.body "rating")) ∨
  (req.body "status" ≠ .undefined ∧ ¬ ∃ d ∈ statuses, req.body "status" = .str d)

/-- An update request for id 1 whose body has a status outside the list. -/
def reqBadStatus : Req := reqWithId "1" [("status", .str "closed")]

/-- An update request for id 1 whose body has an empty name and a malformed email. -/
def reqBadNameEmail : Req := reqWithId "1" [("name", .str ""), ("email", .str "not-an-email")]

/-- A text field as the create route stores it: the text of the submitted value,
trimmed. -/
def trimmedText (v : JsVal) : JsVal := .str (String.mk (trimChars (fieldText v)))

/-- An optional text field as the create route stores it: `null` when the field is absent
or empty after trimming, the trimmed text otherwise. -/
def optionalText (v : JsVal) : JsVal :=
  if trimChars (fieldText v) = [] then .null else trimmedText v

/-- The create request of the spec example. -/
def reqJohn : Req :=
  { Req.empty with body := obj [("name", .str "John Doe"), ("email", .str "john@x.com"),
      ("eventName", .str "Workshop"), ("division", .str "LnT"), ("rating", .num ⟨5, by decide⟩)] }

/-- A create request whose name has a blank on either side. -/
def reqPaddedName : Req :=
  { Req.empty with body := obj [("name", .str " John Doe "), ("email", .str "john@x.com"),
      ("eventName", .str "Workshop"), ("division", .str "LnT"), ("rating", .num ⟨5, by decide⟩)] }

/-- A thrown error that is not a storage error, with a message and a stack. -/
def errBoom (stack : String) : Err :=
  { cls := .other, code := "", statusCode := some 503, message := some "boom",
    stack := some stack }

/-- A thrown storage request error with code P2002, a message and a stack. -/
def errDuplicate : Err :=
  { cls := .knownRequest, code := "P2002", statusCode := none,
    message := some "Unique constraint failed on the fields: (email)",
    stack := some "PrismaClientKnownRequestError: at create" }

/-- A request to one of the five routes of the route table. -/
inductive ApiRequest where
  | list (req : Req)
  | get (req : Req)
  | create (now : Nat) (req : Req)
  | update (req : Req)
  | delete (req : Req)

/-- Dispatch of a request to its route: the validation chain of the route, then its
handler. -/
def dispatch (L : EmailLib) (db : Db) : ApiRequest → Outcome
  | .list req => routeGetAll db req
  | .get req => routeGetById L db req
  | .create now req => routePost L db now req
  | .update req => routePut L db req
  | .delete req => routeDelete L db req

/-- The table after a sequence of requests, served one after the other. -/
def runRequests (L : EmailLib) (db : Db) : List ApiRequest → Db
  | [] => db
  | r :: rest => runRequests L (dispatch L db r).db rest

/-- A stored row respects the data model: an integer rating in [1,5], a division and a
status of the closed lists. -/
def RowValid (r : Feedback) : Prop :=
  (∃ n : Int, r.rating = some n ∧ 1 ≤ n ∧ n ≤ 5) ∧
  (∃ d ∈ divisions, r.division = .str d) ∧
  (∃ d ∈ statuses, r.status = .str d)

/-- The table invariant: every row respects the data model, no two rows share an id, and
every id is below the auto-increment counter. -/
def StoreInv (db : Db) : Prop :=
  (∀ r ∈ db.rows, RowValid r) ∧
  (db.rows.map (fun r => r.id)).Nodup ∧
  ∀ r ∈ db.rows, r.id < db.nextId

/-- The fields of an update body that the invariant is about are absent or valid. -/
def UpdateBodyValid (body : String → JsVal) : Prop :=
  (body "division" = .undefined ∨ ∃ d ∈ divisions, body "division" = .str d) ∧
  (body "rating" = .undefined ∨ RatingInRange (body "rating")) ∧
  (body "status" = .undefined ∨ ∃ d ∈ statuses, body "status" = .str d)

/-- The chain `body('division')` of the create rules. -/
def createDivisionChain : Chain :=
  { location := .body, field := "division", optional := false,
    steps := [.notEmpty "Division is required",
              .isIn divisions "Division must be one of: LnT, Eeo, PR, HRD, AnD"] }

/-- The chain `body('division')` of the update rules. -/
def updateDivisionChain : Chain :=
  { location := .body, field := "division", optional := true,
    steps := [.isIn divisions "Division must be one of: LnT, Eeo, PR, HRD, AnD"] }

/-- The chain `body('rating')` of the update rules. -/
def updateRatingChain : Chain :=
  { location := .body, field := "rating", optional := true,
    steps := [.isInt (some 1) (some 5) "Rating must be an integer between 1 and 5"] }

/-- The chain `body('status')` of the update rules. -/
def updateStatusChain : Chain :=
  { location := .body, field := "status", optional := true,
    steps := [.isIn statuses "Status must be one of: open, in_review, resolved"] }

/-- A create request whose body also carries a status and an id. -/
def reqWithStatus : Req :=
  { Req.empty with body := obj [("name", .str "John Doe"), ("email", .str "john@x.com"),
      ("eventName", .str "Workshop"), ("division", .str "PR"), ("rating", .str "4"),
      ("status", .str "resolved"), ("id", .num ⟨99, by decide⟩)] }

/-- A sequence of requests: two creates, an update of the first row that is refused
(rating 9), an update of the first row that is accepted, and a delete of the second. -/
def sampleRequests : List ApiRequest :=
  [ .create 7 reqJohn,
    .create 8 reqWithStatus,
    .update (reqWithId "1" [("rating", .num ⟨9, by decide⟩)]),
    .update (reqWithId "1" [("rating", .str "2"), ("status", .str "in_review")]),
    .delete (reqWithId "2" []) ]

/-- The row the update route leaves for a request with the given body: each of eventName,
division, rating, comment, suggestion and status takes the value the validation chain
hands to the handler when the body has the field (eventName, comment and suggestion
trimmed, rating as its integer value) and keeps its value otherwise; id, name, email and
createdAt keep their values. -/
def updatedByRoute (body : String → JsVal) (r : Feedback) : Feedback :=
  { id := r.id, name := r.name, email := r.email,
    eventName :=
      if body "eventName" = .undefined then r.eventName else trimmedText (body "eventName"),
    division := if body "division" = .undefined then r.division else body "division",
    rating := if body "rating" = .undefined then r.rating else parseInt (body "rating"),
    comment := if body "comment" = .undefined then r.comment else trimmedText (body "comment"),
    suggestion :=
      if body "suggestion" = .undefined then r.suggestion
      else trimmedText (body "suggestion"),
    createdAt := r.createdAt,
    status := if body "status" = .undefined then r.status else body "status" }

/-- An update request for id 1 whose rating is the word `abc`. -/
def reqRatingWord : Req := reqWithId "1" [("rating", .str "abc")]

/-- An update request for id 1 with a padded event name, a rating and a status. -/
def reqThreeFields : Req :=
  reqWithId "1" [("eventName", .str " Expo "), ("rating", .str "3"),
    ("status", .str "resolved")]

/-! ## The error translator -/

/-- C1, as amended: `errorHandler` maps a known storage request error with code P2002 to
409 and the duplicate-record message, with code P2025 to 404 `Record not found`, with any
other code to 400 `Database error occurred`; a storage validation error to 400
`Validation error`; every other error to the status `err.statusCode` when that is a
non-zero number and to 500 when it is absent or 0, with the message `err.message` when
that is a non-empty text and `Internal server error` when it is absent or empty. In every
case `success` is false. -/
theorem errorHandler_table (nodeEnv : Option String) (err : Err) :
    (err.cls = .knownRequest → err.code = "P2002" →
      (errorHandler nodeEnv err).status = 409 ∧
      (errorHandler nodeEnv err).message = "A record with this data already exists") ∧
    (err.cls = .knownRequest → err.code = "P2025" →
      (errorHandler nodeEnv err).status = 404 ∧
      (errorHandler nodeEnv err).message = "Record not found") ∧
    (err.cls = .knownRequest → err.code ≠ "P2002" → err.code ≠ "P2025" →
      (errorHandler nodeEnv err).status = 400 ∧
      (errorHandler nodeEnv err).message = "Database error occurred") ∧
    (err.cls = .validation →
      (errorHandler nodeEnv err).status = 400 ∧
      (errorHandler nodeEnv err).message = "Validation error") ∧
    (err.cls = .other →
      (∀ c, err.statusCode = some c → c ≠ 0 → (errorHandler nodeEnv err).status = c) ∧
      (err.statusCode = none ∨ err.statusCode = some 0 →
        (errorHandler nodeEnv err).status = 500) ∧
      (∀ m, err.message = some m → m ≠ "" → (errorHandler nodeEnv err).message = m) ∧
      (err.message = none ∨ err.message = some "" →
        (errorHandler nodeEnv err).message = "Internal server error")) ∧
    (errorHandler nodeEnv err).success = false := by
  refine ⟨?_, ?_, ?_, ?_, ?_, ?_⟩
  · intro hc hcode
    simp [errorHandler, hc, hcode]
  · intro hc hcode
    simp [errorHandler, hc, hcode]
  · intro hc h1 h2
    simp [errorHandler, hc, h1, h2]
  · intro hc
    simp [errorHandler, hc]
  · intro hc
    refine ⟨?_, ?_, ?_, ?_⟩
    · intro c hs hne
      simp [errorHandler, hc, hs, statusOrDefault, hne]
    · rintro (hs | hs) <;> simp [errorHandler, hc, hs, statusOrDefault]
    · intro m hm hne
      simp [errorHandler, hc, hm, messageOrDefault, hne]
    · rintro (hm | hm) <;> simp [errorHandler, hc, hm, messageOrDefault]
  · unfold errorHandler
    cases err.cls <;> simp
    split_ifs <;> rfl

/-- C1, counterexample: an error that is not a storage error and whose `statusCode` is
present and equal to 0 is answered with status 500, not with its `statusCode`. -/
theorem errorHandler_statusCode_zero :
    errStatusZero.cls = .other ∧ errStatusZero.statusCode = some 0 ∧
    (errorHandler none errStatusZero).status = 500 ∧
    (errorHandler none errStatusZero).status ≠ 0 := by
  decide

/-! ## Lookups by id -/

theorem find_absent (rows : List Feedback) (i : Int) (h : ∀ r ∈ rows, r.id ≠ i) :
    rows.find? (fun r => r.id == i) = none := by
  rw [List.find?_eq_none]
  intro r hr
  simpa using h r hr

theorem find_present (rows : List Feedback) (i : Int) (h : ∃ r ∈ rows, r.id = i) :
    ∃ r, rows.find? (fun r => r.id == i) = some r ∧ r ∈ rows ∧ r.id = i := by
  obtain ⟨r, hr, hi⟩ := h
  cases hf : rows.find? (fun r => r.id == i) with
  | none =>
    rw [List.find?_eq_none] at hf
    exact absurd (by simpa using hi) (hf r hr)
  | some x =>
    exact ⟨x, rfl, List.mem_of_find?_eq_some hf, by simpa using List.find?_some hf⟩

theorem handlers_absent_id_aux (rows : List Feedback) (nextId : Int) (req : Req) (i : Int)
    (hid : parseInt (req.params "id") = some i) (habs : ∀ r ∈ rows, r.id ≠ i) :
    deleteFeedback { rows := rows, nextId := nextId } req =
      { reply := .sent { status := 404, success := false, message := "Feedback not found",
                         data := .absent, errors := none, error := none },
        db := { rows := rows, nextId := nextId }, calls := [.findUnique (some i)] } := by
  have hf := find_absent rows i habs
  simp [deleteFeedback, hid, Db.findUnique, hf, notFoundResponse, Response.plain]

/-- C3: for every table and every request whose id no row of the table has,
`getFeedbackById`, `updateFeedback` and `deleteFeedback` each answer 404 with
`{success: false, message: 'Feedback not found'}`, issue the lookup and no other storage
call, and leave the table as it was, whatever the body holds. -/
theorem handlers_absent_id (db : Db) (req : Req) (i : Int)
    (hid : parseInt (req.params "id") = some i) (habs : ∀ r ∈ db.rows, r.id ≠ i) :
    getFeedbackById db req =
      { reply := .sent { status := 404, success := false, message := "Feedback not found",
                         data := .absent, errors := none, error := none },
        db := db, calls := [.findUnique (some i)] } ∧
    updateFeedback db req =
      { reply := .sent { status := 404, success := false, message := "Feedback not found",
                         data := .absent, errors := none, error := none },
        db := db, calls := [.findUnique (some i)] } ∧
    deleteFeedback db req =
      { reply := .sent { status := 404, success := false, message := "Feedback not found",
                         data := .absent, errors := none, error := none },
        db := db, calls := [.findUnique (some i)] } := by
  have hf := find_absent db.rows i habs
  refine ⟨?_, ?_, ?_⟩
  · simp [getFeedbackById, hid, Db.findUnique, hf, notFoundResponse, Response.plain]
  · simp [updateFeedback, hid, Db.findUnique, hf, notFoundResponse, Response.plain]
  · simp [deleteFeedback, hid, Db.findUnique, hf, notFoundResponse, Response.plain]

/-- C3, witness: a table holding the row with id 1, asked for id 2. -/
theorem handlers_absent_id_witness :
    getFeedbackById { rows := [sampleRow 1 10], nextId := 2 }
        (reqWithId "2" [("status", .str "resolved")]) =
      { reply := .sent { status := 404, success := false, message := "Feedback not found",
                         data := .absent, errors := none, error := none },
        db := { rows := [sampleRow 1 10], nextId := 2 }, calls := [.findUnique (some 2)] } ∧
    updateFeedback { rows := [sampleRow 1 10], nextId := 2 }
        (reqWithId "2" [("status", .str "resolved")]) =
      { reply := .sent { status := 404, success := false, message := "Feedback not found",
                         data := .absent, errors := none, error := none },
        db := { rows := [sampleRow 1 10], nextId := 2 }, calls := [.findUnique (some 2)] } ∧
    deleteFeedback { rows := [sampleRow 1 10], nextId := 2 }
        (reqWithId "2" [("status", .str "resolved")]) =
      { reply := .sent { status := 404, success := false, message := "Feedback not found",
                         data := .absent, errors := none, error := none },
        db := { rows := [sampleRow 1 10], nextId := 2 }, calls := [.findUnique (some 2)] } :=
  handlers_absent_id { rows := [sampleRow 1 10], nextId := 2 }
    (reqWithId "2" [("status", .str "resolved")]) 2 (by decide) (by decide)

/-! ## Delete -/

/-- C4: for every table that holds a row with id `i`, `deleteFeedback` on `i` answers 200
with a success message and no data, the table afterwards holds no row with id `i` and
exactly the other rows, unchanged and in their order, and a second `deleteFeedback` on
`i` answers 404 and changes nothing. -/
theorem deleteFeedback_hard (db : Db) (req : Req) (i : Int)
    (hid : parseInt (req.params "id") = some i) (hex : ∃ r ∈ db.rows, r.id = i) :
    (deleteFeedback db req).reply =
      .sent { status := 200, success := true, message := "Feedback deleted successfully",
              data := .absent, errors := none, error := none } ∧
    (∀ r ∈ (deleteFeedback db req).db.rows, r.id ≠ i) ∧
    (deleteFeedback db req).db.rows = db.rows.filter (fun r => decide (r.id ≠ i)) ∧
    (∀ r, r.id ≠ i → (r ∈ (deleteFeedback db req).db.rows ↔ r ∈ db.rows)) ∧
    (deleteFeedback (deleteFeedback db req).db req).reply =
      .sent { status := 404, success := false, message := "Feedback not found",
              data := .absent, errors := none, error := none } ∧
    (deleteFeedback (deleteFeedback db req).db req).db = (deleteFeedback db req).db := by
  obtain ⟨r, hf, -, -⟩ := find_present db.rows i hex
  have hout : deleteFeedback db req =
      { reply := .sent (Response.plain 200 true "Feedback deleted successfully"),
        db := { db with rows := db.rows.filter (fun x => !(x.id == i)) },
        calls := [.findUnique (some i), .delete (some i)] } := by
    simp [deleteFeedback, hid, Db.findUnique, Db.delete, hf]
  have hgone : ∀ x ∈ db.rows.filter (fun x => !(x.id == i)), x.id ≠ i := by
    intro x hx
    simpa using (List.mem_filter.mp hx).2
  have h2 := (handlers_absent_id_aux (db.rows.filter (fun x => !(x.id == i))) db.nextId req i
    hid hgone)
  rw [hout]
  refine ⟨by simp [Response.plain], hgone, ?_, ?_, ?_, ?_⟩
  · apply List.filter_congr
    intro x _
    by_cases hx : x.id = i <;> simp [hx]
  · intro x hx
    simp [List.mem_filter, hx]
  · simp [h2]
  · simp [h2]

/-- C4, witness: deleting id 1 from a table that holds ids 1 and 2. -/
theorem deleteFeedback_hard_witness :
    (∃ r ∈ [sampleRow 1 10, sampleRow 2 20], r.id = 1) ∧
    (deleteFeedback { rows := [sampleRow 1 10, sampleRow 2 20], nextId := 3 }
        (reqWithId "1" [])).db.rows = [sampleRow 2 20] ∧
    (deleteFeedback (deleteFeedback { rows := [sampleRow 1 10, sampleRow 2 20], nextId := 3 }
        (reqWithId "1" [])).db (reqWithId "1" [])).reply =
      .sent { status := 404, success := false, message := "Feedback not found",
              data := .absent, errors := none, error := none } :=
  ⟨by decide, by decide,
   (deleteFeedback_hard { rows := [sampleRow 1 10, sampleRow 2 20], nextId := 3 }
      (reqWithId "1" []) 1 (by decide) (by decide)).2.2.2.2.1⟩

/-! ## Update -/

theorem patchRow_updateData (body : String → JsVal) (r : Feedback) :
    patchRow r (updateData body) = updatedAsSpecified body r := by
  simp only [patchRow, updateData, updatedAsSpecified, whenDefined]
  congr 1 <;> split_ifs <;> simp_all

theorem updatedAsSpecified_empty (body : String → JsVal) (r : Feedback)
    (h : ∀ f ∈ ["eventName", "division", "rating", "comment", "suggestion", "status"],
      body f = .undefined) : updatedAsSpecified body r = r := by
  simp only [List.mem_cons, List.mem_singleton, forall_eq_or_imp, forall_eq,
    List.not_mem_nil, false_implies, implies_true, and_true] at h
  obtain ⟨h1, h2, h3, h4, h5, h6⟩ := h
  simp [updatedAsSpecified, h1, h2, h3, h4, h5, h6]

theorem updateFeedback_accepted (db : Db) (req : Req) (i : Int) (r : Feedback)
    (hid : parseInt (req.params "id") = some i)
    (hrow : db.rows.find? (fun x => x.id == i) = some r)
    (hacc : (updateData req.body).accepted = true) :
    updateFeedback db req =
      { reply := .sent
          { status := 200, success := true, message := "Feedback updated successfully",
            data := .record (updatedAsSpecified req.body r), errors := none, error := none },
        db := { rows := db.rows.map
                  (fun x => if x.id = i then updatedAsSpecified req.body x else x),
                nextId := db.nextId },
        calls := [.findUnique (some i), .update (some i)] } := by
  simp [updateFeedback, hid, Db.findUnique, Db.update, hrow, hacc, patchRow_updateData]

/-! ## List -/

/-- C5, failing input: on a table of three rows, `GET /?limit=1e1` answers with
pagination `limit = 1` (the value `parseInt` reads), `total = 3` and `totalPages = 1`
(the ceiling of `3 / "1e1"`, that is of `3 / 10`), while the ceiling of `total / limit`
for the reported values is 3. -/
theorem getAllFeedbacks_totalPages_raw_limit :
    (getAllFeedbacks { rows := [sampleRow 1 10, sampleRow 2 20, sampleRow 3 30], nextId := 4 }
        (reqWithQuery [("limit", .str "1e1")])).reply =
      .sent { status := 200, success := true, message := "Feedbacks retrieved successfully",
              data := .listing [sampleRow 3 30]
                { page := some 1, limit := some 1, total := 3, totalPages := .fin false 1 1 },
              errors := none, error := none } ∧
    ((JsNum.ofInt 3).div (JsNum.ofInt 1)).ceil = .fin false 3 1 := by
  decide

theorem condHolds_whenTruthy (v col : JsVal) (hv : TextOrAbsent v) :
    condHolds (whenTruthy v) col = decide (v = .undefined ∨ v = .str "" ∨ col = v) := by
  rcases hv with h | ⟨s, h⟩
  · simp [h, whenTruthy, JsVal.truthy, condHolds]
  · by_cases hs : s = ""
    · simp [h, hs, whenTruthy, JsVal.truthy, condHolds]
    · simp [h, hs, whenTruthy, JsVal.truthy, condHolds]

theorem selectRows_eq_matching (db : Db) (st dv : JsVal) (hst : TextOrAbsent st)
    (hdv : TextOrAbsent dv) :
    db.selectRows { status := whenTruthy st, division := whenTruthy dv } =
      matchingRows db st dv := by
  unfold Db.selectRows matchingRows
  apply List.filter_congr
  intro r _
  rw [condHolds_whenTruthy _ _ hst, condHolds_whenTruthy _ _ hdv]
  simp only [Bool.decide_and]

theorem parseInt_ne_undefined (v : JsVal) (k : Int) (h : parseInt v = some k) :
    v ≠ .undefined := by
  rintro rfl
  have hu : parseInt .undefined = none := by decide
  rw [hu] at h
  exact absurd h (by simp)

theorem ceil_div_pos (n l : Nat) (v : JsVal) (hv : v.toNumber = JsNum.ofInt (l : Int))
    (hl : 0 < l) :
    ((JsNum.ofInt (n : Int)).div v.toNumber).ceil = .fin false ((n + l - 1) / l) 1 := by
  rw [hv]
  have hl0 : l ≠ 0 := Nat.pos_iff_ne_zero.mp hl
  show ((JsNum.ofInt (Int.ofNat n)).div (JsNum.ofInt (Int.ofNat l))).ceil = _
  simp [JsNum.ofInt, JsNum.div, JsNum.ceil, hl0]

/-- C6: for every table and every list request whose page and limit read as positive
integers `p` and `l` (status and division being texts or absent), `getAllFeedbacks`
answers 200 with the rows matching the equality filter, ordered by creation time
descending, cut to the slice that starts at offset `(p - 1) * l` and has at most `l`
rows: exactly `min l (n - (p - 1) * l)` rows (the subtraction stopping at 0), where `n`
is the number of matching rows, reported as `total`; the table is unchanged; and when
the limit text is the numeral of `l`, `totalPages` is the ceiling of `n / l`. -/
theorem getAllFeedbacks_slice (db : Db) (req : Req) (p l : Nat)
    (hp : parseInt (req.query "page") = some (p : Int))
    (hl : parseInt (req.query "limit") = some (l : Int))
    (hp0 : 0 < p) (hl0 : 0 < l)
    (hst : TextOrAbsent (req.query "status")) (hdv : TextOrAbsent (req.query "division")) :
    ∃ (sorted fs : List Feedback) (pg : Pagination),
      (getAllFeedbacks db req).reply =
        .sent { status := 200, success := true, message := "Feedbacks retrieved successfully",
                data := .listing fs pg, errors := none, error := none } ∧
      (getAllFeedbacks db req).db = db ∧
      sorted.Perm (matchingRows db (req.query "status") (req.query "division")) ∧
      sorted.Sorted newerFirst ∧
      fs = (sorted.drop ((p - 1) * l)).take l ∧
      fs.length = min l
        ((matchingRows db (req.query "status") (req.query "division")).length - (p - 1) * l) ∧
      pg.page = some (p : Int) ∧ pg.limit = some (l : Int) ∧
      pg.total = (matchingRows db (req.query "status") (req.query "division")).length ∧
      ((req.query "limit").toNumber = JsNum.ofInt (l : Int) →
        pg.totalPages = .fin false
          (((matchingRows db (req.query "status") (req.query "division")).length + l - 1) / l)
          1) := by
  have hpu := parseInt_ne_undefined _ _ hp
  have hlu := parseInt_ne_undefined _ _ hl
  have hskip : ((p : Int) - 1) * (l : Int) = (((p - 1) * l : Nat) : Int) := by
    have : 1 ≤ p := hp0
    push_cast [Nat.cast_sub this]
    ring
  have hnn : ¬ ((((p - 1) * l : Nat) : Int) < 0) := by omega
  have hto : (((p - 1 : Nat) : Int) * (l : Int)).toNat = (p - 1) * l := by
    rw [← Nat.cast_mul]
    exact Int.toNat_natCast _
  refine ⟨(matchingRows db (req.query "status") (req.query "division")).insertionSort
      newerFirst,
    (((matchingRows db (req.query "status") (req.query "division")).insertionSort
      newerFirst).drop ((p - 1) * l)).take l,
    { page := some (p : Int), limit := some (l : Int),
      total := (matchingRows db (req.query "status") (req.query "division")).length,
      totalPages := ((JsNum.ofInt ((matchingRows db (req.query "status")
        (req.query "division")).length : Int)).div (req.query "limit").toNumber).ceil },
    ?_, ?_, List.perm_insertionSort _ _, List.sorted_insertionSort _ _,
    rfl, ?_, rfl, rfl, rfl, ?_⟩
  · simp only [getAllFeedbacks, orDefault, hpu, hlu, if_false, skipOf, hp, hl, Db.findMany,
      hskip, hnn, selectRows_eq_matching db _ _ hst hdv, Db.count]
    simp [hto]
  · simp only [getAllFeedbacks, orDefault, hpu, hlu, if_false, skipOf, hp, hl, Db.findMany,
      hskip, hnn]
    simp
  · simp [List.length_take, List.length_drop, List.length_insertionSort]
  · intro hnum
    exact ceil_div_pos _ l _ hnum hl0

/-- C6, witness: `GET /?page=2&limit=5` on twelve rows answers with exactly 5 rows,
`total = 12` and `totalPages = 3`. -/
theorem getAllFeedbacks_slice_witness :
    ∃ (fs : List Feedback) (pg : Pagination),
      (getAllFeedbacks { rows := twelveRows, nextId := 13 }
          (reqWithQuery [("page", .str "2"), ("limit", .str "5")])).reply =
        .sent { status := 200, success := true, message := "Feedbacks retrieved successfully",
                data := .listing fs pg, errors := none, error := none } ∧
      fs.length = 5 ∧ pg.total = 12 ∧ pg.totalPages = .fin false 3 1 := by
  obtain ⟨_, fs, pg, h1, -, -, -, -, h6, -, -, h9, h10⟩ :=
    getAllFeedbacks_slice { rows := twelveRows, nextId := 13 }
      (reqWithQuery [("page", .str "2"), ("limit", .str "5")]) 2 5
      (by decide) (by decide) (by decide) (by decide) (Or.inl (by decide)) (Or.inl (by decide))
  have hn : (matchingRows { rows := twelveRows, nextId := 13 }
      ((reqWithQuery [("page", .str "2"), ("limit", .str "5")]).query "status")
      ((reqWithQuery [("page", .str "2"), ("limit", .str "5")]).query "division")).length
      = 12 := by decide
  rw [hn] at h6 h9 h10
  exact ⟨fs, pg, h1, h6, h9, h10 (by decide)⟩

/-! ## Running rule chains -/

theorem runSteps_fst (L : EmailLib) (loc : Location) (f : String) (steps : List Step)
    (v : JsVal) : (runSteps L loc f steps v).1 = stepsValue L steps v := by
  induction steps generalizing v with
  | nil => rfl
  | cons st rest ih =>
    simp only [runSteps, stepsValue]
    split_ifs <;> exact ih _

theorem runSteps_snd_nil (L : EmailLib) (loc : Location) (f : String) (steps : List Step)
    (v : JsVal) : (runSteps L loc f steps v).2 = [] ↔ stepsAccept L steps v = true := by
  induction steps generalizing v with
  | nil => simp [runSteps, stepsAccept]
  | cons st rest ih =>
    simp only [runSteps, stepsAccept, Bool.and_eq_true]
    split_ifs with h
    · simp [h, ih]
    · simp [h]

theorem runSteps_path (L : EmailLib) (loc : Location) (f : String) (steps : List Step)
    (v : JsVal) : ∀ e ∈ (runSteps L loc f steps v).2, e.path = f := by
  induction steps generalizing v with
  | nil => simp [runSteps]
  | cons st rest ih =>
    intro e he
    simp only [runSteps] at he
    split_ifs at he with h
    · exact ih _ e he
    · rcases List.mem_cons.mp he with rfl | he2
      · rfl
      · exact ih _ e he2

theorem errorsAt_nil_iff (L : EmailLib) (c : Chain) (v : JsVal) :
    c.errorsAt L v = [] ↔ c.passes L v = true := by
  unfold Chain.errorsAt Chain.passes
  by_cases h : c.skips v = true
  · simp [h]
  · simp [h, runSteps_snd_nil]

theorem errorsAt_path (L : EmailLib) (c : Chain) (v : JsVal) :
    ∀ e ∈ c.errorsAt L v, e.path = c.field := by
  unfold Chain.errorsAt
  split_ifs
  · simp
  · exact runSteps_path L _ _ _ _

theorem errorsAt_entry (L : EmailLib) (c : Chain) (v : JsVal) (h : c.passes L v = false) :
    ∃ e ∈ c.errorsAt L v, e.path = c.field := by
  have hne : c.errorsAt L v ≠ [] := by
    intro hnil
    rw [errorsAt_nil_iff] at hnil
    simp [hnil] at h
  obtain ⟨e, he⟩ := List.exists_mem_of_ne_nil _ hne
  exact ⟨e, he, errorsAt_path L c v e he⟩

theorem get_set (req : Req) (loc loc2 : Location) (f f2 : String) (v : JsVal) :
    (req.set loc f v).get loc2 f2 = if loc2 = loc ∧ f2 = f then v else req.get loc2 f2 := by
  cases loc <;> cases loc2 <;> simp [Req.set, Req.get, Function.update_apply]

theorem runChain_fst_get (L : EmailLib) (c : Chain) (req : Req) (loc : Location)
    (f : String) :
    (runChain L c req).1.get loc f =
      if (loc, f) = c.key then c.value L (req.get loc f) else req.get loc f := by
  unfold runChain Chain.value Chain.skips Chain.key
  by_cases hk : loc = c.location ∧ f = c.field
  · obtain ⟨rfl, rfl⟩ := hk
    by_cases hs : (c.optional && decide (req.get c.location c.field = .undefined)) = true
    · simp [hs]
    · simp [hs, get_set, runSteps_fst]
  · have hk2 : ¬ ((loc, f) = (c.location, c.field)) := by
      simpa [Prod.ext_iff] using hk
    by_cases hs : (c.optional && decide (req.get c.location c.field = .undefined)) = true
    · simp [hs, hk2]
    · simp [hs, hk2, get_set, hk]

theorem runChain_snd (L : EmailLib) (c : Chain) (req : Req) :
    (runChain L c req).2 = c.errorsAt L (req.get c.location c.field) := by
  unfold runChain Chain.errorsAt Chain.skips
  by_cases hs : (c.optional && decide (req.get c.location c.field = .undefined)) = true
  · simp [hs]
  · simp [hs]

theorem allErrors_congr (L : EmailLib) (cs : List Chain) (r1 r2 : Req)
    (h : ∀ c ∈ cs, r1.get c.location c.field = r2.get c.location c.field) :
    allErrors L cs r1 = allErrors L cs r2 := by
  induction cs with
  | nil => rfl
  | cons c rest ih =>
    simp only [allErrors]
    rw [h c (List.mem_cons_self _ _), ih (fun d hd => h d (List.mem_cons_of_mem _ hd))]

/-- The errors of a route whose chains read distinct fields are the errors of each chain
at the value its field has in the incoming request. -/
theorem runChains_snd (L : EmailLib) (cs : List Chain) (req : Req)
    (hnd : (cs.map Chain.key).Nodup) : (runChains L cs req).2 = allErrors L cs req := by
  induction cs generalizing req with
  | nil => rfl
  | cons c rest ih =>
    simp only [List.map_cons, List.nodup_cons] at hnd
    simp only [runChains, allErrors, runChain_snd]
    rw [ih _ hnd.2]
    congr 1
    apply allErrors_congr
    intro d hd
    rw [runChain_fst_get]
    have hne : ¬ ((d.location, d.field) = c.key) := by
      intro heq
      exact hnd.1 (List.mem_map.mpr ⟨d, hd, heq⟩)
    simp [hne]

theorem runChains_fst_get (L : EmailLib) (cs : List Chain) (req : Req)
    (hnd : (cs.map Chain.key).Nodup) (loc : Location) (f : String) :
    (runChains L cs req).1.get loc f = valueAfter L cs loc f (req.get loc f) := by
  induction cs generalizing req with
  | nil => rfl
  | cons c rest ih =>
    simp only [List.map_cons, List.nodup_cons] at hnd
    simp only [runChains]
    rw [ih _ hnd.2, runChain_fst_get]
    unfold valueAfter
    by_cases hk : (loc, f) = c.key
    · have hnone : rest.find? (fun d => decide (d.key = (loc, f))) = none := by
        rw [List.find?_eq_none]
        intro d hd
        simp only [decide_eq_true_eq]
        intro heq
        exact hnd.1 (List.mem_map.mpr ⟨d, hd, by rw [heq, hk]⟩)
      have hd : decide (c.key = (loc, f)) = true := by simp [hk]
      rw [List.find?_cons, hd, hnone, if_pos hk]
    · have hk2 : ¬ (c.key = (loc, f)) := fun h => hk h.symm
      simp [hk, hk2, List.find?_cons]

/-! ## Integer numerals: what `isInt`, `parseInt` and ToNumber read -/

theorem isDigit_iff (c : Char) : c.isDigit = true ↔ 48 ≤ c.toNat ∧ c.toNat ≤ 57 := by
  unfold Char.isDigit Char.toNat
  simp [UInt32.le_def, UInt32.toNat, BitVec.le_def]

theorem digit_not_space (c : Char) (h : c.isDigit = true) : isJsSpace c = false := by
  rw [isDigit_iff] at h
  simp only [isJsSpace, Bool.or_eq_false_iff, Bool.and_eq_false_iff, beq_eq_false_iff_ne,
    decide_eq_false_iff_not]
  omega

theorem digit_ne_minus (c : Char) (h : c.isDigit = true) : c ≠ '-' := by
  rintro rfl
  revert h
  decide

theorem digit_ne_plus (c : Char) (h : c.isDigit = true) : c ≠ '+' := by
  rintro rfl
  revert h
  decide

theorem takeWhile_of_all {α : Type} (p : α → Bool) (l : List α) (h : l.all p = true) :
    l.takeWhile p = l := by
  induction l with
  | nil => rfl
  | cons a t ih =>
    simp only [List.all_cons, Bool.and_eq_true] at h
    simp [List.takeWhile_cons, h.1, ih h.2]

theorem dropWhile_of_all {α : Type} (p : α → Bool) (l : List α) (h : l.all p = true) :
    l.dropWhile p = [] := by
  induction l with
  | nil => rfl
  | cons a t ih =>
    simp only [List.all_cons, Bool.and_eq_true] at h
    simp [List.dropWhile_cons, h.1, ih h.2]

theorem dropWhile_of_none {α : Type} (p : α → Bool) (l : List α)
    (h : ∀ a ∈ l, p a = false) : l.dropWhile p = l := by
  cases l with
  | nil => rfl
  | cons a t => simp [List.dropWhile_cons, h a (List.mem_cons_self _ _)]

theorem trimChars_of_no_space (cs : List Char) (h : ∀ c ∈ cs, isJsSpace c = false) :
    trimChars cs = cs := by
  unfold trimChars trimEnd trimStart
  rw [dropWhile_of_none _ cs h, dropWhile_of_none _ cs.reverse (by simpa using h)]
  exact List.reverse_reverse cs

theorem IsDigits.no_space {ds : List Char} (h : IsDigits ds) :
    ∀ c ∈ ds, isJsSpace c = false := by
  intro c hc
  exact digit_not_space c (List.all_eq_true.mp h.2 c hc)

theorem parseIntDigits_digits {ds : List Char} (h : IsDigits ds) :
    parseIntDigits ds = some (digitsValue ds) := by
  obtain ⟨hne, hall⟩ := h
  unfold parseIntDigits
  split
  · simp at hall
  · simp at hall
  · rw [takeWhile_of_all _ _ hall]
    cases ds with
    | nil => exact absurd rfl hne
    | cons c t => simp

theorem parseUnsignedDecimal_digits {ds : List Char} (h : IsDigits ds) (neg : Bool) :
    parseUnsignedDecimal neg ds = .fin neg (digitsValue ds) 1 := by
  obtain ⟨hne, hall⟩ := h
  have hinf : ds ≠ "Infinity".data := by
    rintro rfl
    revert hall
    decide
  unfold parseUnsignedDecimal
  rw [if_neg hinf, takeWhile_of_all _ _ hall, dropWhile_of_all _ _ hall]
  cases ds with
  | nil => exact absurd rfl hne
  | cons c t => simp [parseExponent, scaleDecimal]

theorem stringToNumber_digits {ds : List Char} (h : IsDigits ds) :
    stringToNumber ds = .fin false (digitsValue ds) 1 := by
  unfold stringToNumber
  rw [trimChars_of_no_space ds h.no_space]
  have hall := h.2
  split
  · exact absurd rfl h.1
  · simp at hall
  · simp at hall
  · simp at hall
  · simp at hall
  · simp at hall
  · simp at hall
  · simp at hall
  · simp at hall
  · exact parseUnsignedDecimal_digits h false

theorem stringToNumber_minus {ds : List Char} (h : IsDigits ds) :
    stringToNumber ('-' :: ds) = .fin true (digitsValue ds) 1 := by
  unfold stringToNumber
  rw [trimChars_of_no_space ('-' :: ds) (by
    intro c hc
    rcases List.mem_cons.mp hc with rfl | hc2
    · decide
    · exact h.no_space c hc2)]
  simp [parseUnsignedDecimal_digits h]

theorem stringToNumber_plus {ds : List Char} (h : IsDigits ds) :
    stringToNumber ('+' :: ds) = .fin false (digitsValue ds) 1 := by
  unfold stringToNumber
  rw [trimChars_of_no_space ('+' :: ds) (by
    intro c hc
    rcases List.mem_cons.mp hc with rfl | hc2
    · decide
    · exact h.no_space c hc2)]
  simp [parseUnsignedDecimal_digits h]

theorem parseIntChars_digits {ds : List Char} (h : IsDigits ds) :
    parseIntChars ds = some (digitsValue ds : Int) := by
  unfold parseIntChars trimStart
  rw [dropWhile_of_none _ ds h.no_space]
  have hall := h.2
  split
  · simp at hall
  · simp at hall
  · simp [parseIntDigits_digits h]

theorem parseIntChars_minus {ds : List Char} (h : IsDigits ds) :
    parseIntChars ('-' :: ds) = some (- (digitsValue ds : Int)) := by
  unfold parseIntChars trimStart
  simp [List.dropWhile_cons, show isJsSpace '-' = false by decide, parseIntDigits_digits h]

theorem parseIntChars_plus {ds : List Char} (h : IsDigits ds) :
    parseIntChars ('+' :: ds) = some (digitsValue ds : Int) := by
  unfold parseIntChars trimStart
  simp [List.dropWhile_cons, show isJsSpace '+' = false by decide, parseIntDigits_digits h]

/-- The three shapes of a text that the pattern of `isInt` matches. -/
theorem matchesInt_shape (cs : List Char) (h : matchesInt cs = true) :
    IsDigits cs ∨ (∃ ds, cs = '-' :: ds ∧ IsDigits ds) ∨ (∃ ds, cs = '+' :: ds ∧ IsDigits ds) := by
  unfold matchesInt at h
  split at h
  · rename_i r
    refine Or.inr (Or.inl ⟨r, rfl, ?_⟩)
    simp only [Bool.and_eq_true, Bool.not_eq_true', List.isEmpty_eq_false] at h
    exact ⟨by simpa using h.1, h.2⟩
  · rename_i r
    refine Or.inr (Or.inr ⟨r, rfl, ?_⟩)
    simp only [Bool.and_eq_true, Bool.not_eq_true', List.isEmpty_eq_false] at h
    exact ⟨by simpa using h.1, h.2⟩
  · refine Or.inl ?_
    simp only [Bool.and_eq_true, Bool.not_eq_true', List.isEmpty_eq_false] at h
    exact ⟨by simpa using h.1, h.2⟩

/-- A text that `isInt` accepts with lower bound `lo ≥ 1` reads, for `parseInt`, as an
integer at least `lo`, and at most `hi` when an upper bound is given. -/
theorem isIntText_parse (cs : List Char) (lo : Int) (hi : Option Int) (hlo : 0 < lo)
    (h : isIntText (some lo) hi cs = true) :
    ∃ n : Int, parseIntChars cs = some n ∧ lo ≤ n ∧ (∀ m, hi = some m → n ≤ m) := by
  simp only [isIntText, Bool.and_eq_true] at h
  obtain ⟨⟨hm, hge⟩, hle⟩ := h
  rcases matchesInt_shape cs hm with hd | ⟨ds, rfl, hd⟩ | ⟨ds, rfl, hd⟩
  · rw [stringToNumber_digits hd] at hge hle
    refine ⟨_, parseIntChars_digits hd, ?_, ?_⟩
    · simpa [JsNum.geInt] using hge
    · rintro m rfl
      simpa [JsNum.leInt] using hle
  · rw [stringToNumber_minus hd] at hge
    simp only [JsNum.geInt, decide_eq_true_eq] at hge
    omega
  · rw [stringToNumber_plus hd] at hge hle
    refine ⟨_, parseIntChars_plus hd, ?_, ?_⟩
    · simpa [JsNum.geInt] using hge
    · rintro m rfl
      simpa [JsNum.leInt] using hle

theorem fieldText_eq_toChars (v : JsVal) (h : matchesInt (fieldText v) = true) :
    fieldText v = v.toChars := by
  cases v with
  | undefined => exact absurd h (by decide)
  | null => exact absurd h (by decide)
  | bool b => rfl
  | num n => rfl
  | str s => rfl

/-- A value whose text `isInt` accepts with lower bound `lo ≥ 1` is read by `parseInt`
as an integer within the bounds. -/
theorem isInt_parseInt (v : JsVal) (lo : Int) (hi : Option Int) (hlo : 0 < lo)
    (h : isIntText (some lo) hi (fieldText v) = true) :
    ∃ n : Int, parseInt v = some n ∧ lo ≤ n ∧ (∀ m, hi = some m → n ≤ m) := by
  have hm : matchesInt (fieldText v) = true := by
    simp only [isIntText, Bool.and_eq_true] at h
    exact h.1.1
  unfold parseInt
  rw [← fieldText_eq_toChars v hm]
  exact isIntText_parse _ lo hi hlo h

/-! ## The create route: rejections -/

theorem create_keys_nodup : (createFeedbackValidation.map Chain.key).Nodup := by decide

theorem update_keys_nodup : (updateFeedbackValidation.map Chain.key).Nodup := by decide

theorem guarded_rejects (L : EmailLib) (cs : List Chain) (handler : Req → Outcome) (db : Db)
    (req : Req) (hnd : (cs.map Chain.key).Nodup) (h : allErrors L cs req ≠ []) :
    guarded L cs handler db req =
      { reply := .sent (validationFailed (allErrors L cs req)), db := db, calls := [] } := by
  unfold guarded validate
  simp only [runChains_snd L cs req hnd]
  cases hes : allErrors L cs req with
  | nil => exact absurd hes h
  | cons e t => simp [validationFailed]

theorem guarded_accepts (L : EmailLib) (cs : List Chain) (handler : Req → Outcome) (db : Db)
    (req : Req) (hnd : (cs.map Chain.key).Nodup) (h : allErrors L cs req = []) :
    guarded L cs handler db req = handler (runChains L cs req).1 := by
  unfold guarded validate
  simp only [runChains_snd L cs req hnd, h]
  simp

theorem allErrors_mem (L : EmailLib) (cs : List Chain) (req : Req) (c : Chain) (hc : c ∈ cs)
    (e : FieldError) (he : e ∈ c.errorsAt L (req.get c.location c.field)) :
    e ∈ allErrors L cs req := by
  induction cs with
  | nil => simp at hc
  | cons d rest ih =>
    simp only [allErrors, List.mem_append]
    rcases List.mem_cons.mp hc with rfl | hc2
    · exact Or.inl he
    · exact Or.inr (ih hc2)

/-- A chain of the route that does not pass puts an entry for its field into the errors
of the route. -/
theorem allErrors_entry (L : EmailLib) (cs : List Chain) (req : Req) (c : Chain) (hc : c ∈ cs)
    (h : c.passes L (req.get c.location c.field) = false) :
    ∃ e ∈ allErrors L cs req, e.path = c.field := by
  obtain ⟨e, he, hp⟩ := errorsAt_entry L c _ h
  exact ⟨e, allErrors_mem L cs req c hc e he, hp⟩

theorem isInt_rating (v : JsVal) (h : isIntText (some 1) (some 5) (fieldText v) = true) :
    RatingInRange v := by
  obtain ⟨n, hn, h1, h5⟩ := isInt_parseInt v 1 (some 5) (by decide) h
  refine ⟨?_, n, hn, h1, h5 5 rfl⟩
  simp only [isIntText, Bool.and_eq_true] at h
  exact h.1.1

theorem createRatingChain_fails (L : EmailLib) (v : JsVal) (h : ¬ RatingInRange v) :
    createRatingChain.passes L v = false := by
  by_contra hp
  rw [Bool.not_eq_false] at hp
  simp only [Chain.passes, Chain.skips, createRatingChain, stepsAccept, Step.accepts,
    Step.sanitize, Bool.false_and, Bool.false_or, Bool.and_true, Bool.and_eq_true] at hp
  exact h (isInt_rating v hp.2)

/-- C8: for every create request whose rating does not read as an integer between 1 and
5, whatever its other fields, the create route answers 400 with
`{success: false, message: 'Validation failed', errors}` where `errors` has an entry for
`rating`; no storage call is issued (the handler does not run) and the table is
unchanged. -/
theorem routePost_rating_rejected (L : EmailLib) (db : Db) (now : Nat) (req : Req)
    (hbad : ¬ RatingInRange (req.body "rating")) :
    ∃ es : List FieldError,
      routePost L db now req =
        { reply := .sent { status := 400, success := false, message := "Validation failed",
                           data := .absent, errors := some es, error := none },
          db := db, calls := [] } ∧
      ∃ e ∈ es, e.path = "rating" := by
  have hc : createRatingChain ∈ createFeedbackValidation := by decide
  obtain ⟨e, he, hpath⟩ := allErrors_entry L createFeedbackValidation req createRatingChain hc
    (createRatingChain_fails L _ hbad)
  refine ⟨allErrors L createFeedbackValidation req, ?_, e, he, hpath⟩
  unfold routePost
  rw [guarded_rejects L _ _ db req create_keys_nodup (List.ne_nil_of_mem he)]
  rfl

theorem rating_six_out_of_range : ¬ RatingInRange (.num ⟨6, by decide⟩) := by
  rintro ⟨-, n, hn, -, h5⟩
  rw [show parseInt (.num ⟨6, by decide⟩) = some 6 by decide] at hn
  cases hn
  omega

/-- C8, witness: a request that is valid except for its rating, 6, is rejected with an
entry for `rating`. -/
theorem routePost_rating_rejected_witness :
    ¬ RatingInRange (reqRatingSix.body "rating") ∧
    ∃ es : List FieldError,
      routePost sampleEmailLib Db.empty 7 reqRatingSix =
        { reply := .sent { status := 400, success := false, message := "Validation failed",
                           data := .absent, errors := some es, error := none },
          db := Db.empty, calls := [] } ∧
      ∃ e ∈ es, e.path = "rating" :=
  ⟨rating_six_out_of_range,
   routePost_rating_rejected sampleEmailLib Db.empty 7 reqRatingSix rating_six_out_of_range⟩

theorem trimmed_empty_of_missing (req : Req) (f : String) (h : Missing req f) : trimChars (fieldText (req.body f)) = [] := by
  rcases h with h | ⟨-, h⟩
  · rw [h]
    decide
  · exact h

theorem absent_of_missing (req : Req) (f : String) (hf : f ∉ ["name", "email", "eventName"])
    (h : Missing req f) : req.body f = .undefined := by
  rcases h with h | ⟨h, -⟩
  · exact h
  · exact absurd h hf

theorem fieldText_str (s : String) : fieldText (.str s) = s.data := rfl

theorem fieldText_undefined : fieldText .undefined = [] := rfl

/-- A chain of the create rules that starts with `trim` and `notEmpty` fails on a value
whose trimmed text is empty. -/
theorem trim_notEmpty_fails (L : EmailLib) (f msg : String) (rest : List Step) (v : JsVal)
    (h : trimChars (fieldText v) = []) :
    Chain.passes L { location := .body, field := f, optional := false,
                     steps := .trim :: .notEmpty msg :: rest } v = false := by
  simp [Chain.passes, Chain.skips, stepsAccept, Step.accepts, Step.sanitize, fieldText_str, h]

/-- A chain of the create rules that starts with `notEmpty` fails on an absent value. -/
theorem notEmpty_fails (L : EmailLib) (f msg : String) (rest : List Step) :
    Chain.passes L { location := .body, field := f, optional := false,
                     steps := .notEmpty msg :: rest } .undefined = false := by
  simp [Chain.passes, Chain.skips, stepsAccept, Step.accepts, fieldText_undefined]

theorem required_chain_fails (L : EmailLib) (req : Req) (f : String)
    (hf : f ∈ requiredFields) (hm : Missing req f) :
    ∃ c ∈ createFeedbackValidation,
      c.field = f ∧ c.passes L (req.get c.location c.field) = false := by
  simp only [requiredFields, List.mem_cons, List.mem_singleton, List.not_mem_nil,
    or_false] at hf
  rcases hf with rfl | rfl | rfl | rfl | rfl
  · exact ⟨_, List.mem_cons_self _ _, rfl,
      trim_notEmpty_fails L _ _ _ _ (trimmed_empty_of_missing req "name" hm)⟩
  · exact ⟨_, List.mem_cons_of_mem _ (List.mem_cons_self _ _), rfl,
      trim_notEmpty_fails L _ _ _ _ (trimmed_empty_of_missing req "email" hm)⟩
  · exact ⟨_, List.mem_cons_of_mem _ (List.mem_cons_of_mem _ (List.mem_cons_self _ _)), rfl,
      trim_notEmpty_fails L _ _ _ _ (trimmed_empty_of_missing req "eventName" hm)⟩
  · refine ⟨_, List.mem_cons_of_mem _ (List.mem_cons_of_mem _ (List.mem_cons_of_mem _
      (List.mem_cons_self _ _))), rfl, ?_⟩
    have hu := absent_of_missing req "division" (by decide) hm
    simp only [Req.get, hu]
    exact notEmpty_fails L _ _ _
  · refine ⟨_, List.mem_cons_of_mem _ (List.mem_cons_of_mem _ (List.mem_cons_of_mem _
      (List.mem_cons_of_mem _ (List.mem_cons_self _ _)))), rfl, ?_⟩
    have hu := absent_of_missing req "rating" (by decide) hm
    simp only [Req.get, hu]
    exact notEmpty_fails L _ _ _

/-- C9: for every create request in which a required field (name, email, eventName,
division, rating) is missing, the create route answers 400 with
`{success: false, message: 'Validation failed', errors}`, the table unchanged and no
storage call issued, and `errors` has an entry for every required field that is
missing. -/
theorem routePost_missing_required (L : EmailLib) (db : Db) (now : Nat) (req : Req)
    (h : ∃ f ∈ requiredFields, Missing req f) :
    ∃ es : List FieldError,
      routePost L db now req =
        { reply := .sent { status := 400, success := false, message := "Validation failed",
                           data := .absent, errors := some es, error := none },
          db := db, calls := [] } ∧
      ∀ f ∈ requiredFields, Missing req f → ∃ e ∈ es, e.path = f := by
  have hentry : ∀ f ∈ requiredFields, Missing req f →
      ∃ e ∈ allErrors L createFeedbackValidation req, e.path = f := by
    intro f hf hm
    obtain ⟨c, hc, hfield, hfail⟩ := required_chain_fails L req f hf hm
    obtain ⟨e, he, hp⟩ := allErrors_entry L createFeedbackValidation req c hc hfail
    exact ⟨e, he, hp.trans hfield⟩
  obtain ⟨f, hf, hm⟩ := h
  obtain ⟨e, he, -⟩ := hentry f hf hm
  refine ⟨allErrors L createFeedbackValidation req, ?_, hentry⟩
  unfold routePost
  rw [guarded_rejects L _ _ db req create_keys_nodup (List.ne_nil_of_mem he)]
  rfl

/-- C9, witness: a request with a blank name and neither email nor rating is rejected,
with entries for name, email and rating. -/
theorem routePost_missing_required_witness :
    ∃ es : List FieldError,
      routePost sampleEmailLib Db.empty 7 reqMissingThree =
        { reply := .sent { status := 400, success := false, message := "Validation failed",
                           data := .absent, errors := some es, error := none },
          db := Db.empty, calls := [] } ∧
      (∃ e ∈ es, e.path = "name") ∧ (∃ e ∈ es, e.path = "email") ∧
      (∃ e ∈ es, e.path = "rating") := by
  obtain ⟨es, hout, hall⟩ := routePost_missing_required sampleEmailLib Db.empty 7
    reqMissingThree ⟨"email", by decide, Or.inl (by decide)⟩
  exact ⟨es, hout,
    hall "name" (by decide) (Or.inr ⟨by decide, by decide⟩),
    hall "email" (by decide) (Or.inl (by decide)),
    hall "rating" (by decide) (Or.inl (by decide))⟩

/-! ## The update route: rejections -/

theorem digitChar_isDigit (d : Nat) (h : d < 10) : (Nat.digitChar d).isDigit = true := by
  interval_cases d <;> decide

theorem toDigitsCore_all (fuel n : Nat) (acc : List Char)
    (hacc : acc.all Char.isDigit = true) :
    (Nat.toDigitsCore 10 fuel n acc).all Char.isDigit = true := by
  induction fuel generalizing n acc with
  | zero => simpa [Nat.toDigitsCore] using hacc
  | succ k ih =>
    have hd : (Nat.digitChar (n % 10)).isDigit = true :=
      digitChar_isDigit _ (Nat.mod_lt _ (by decide))
    simp only [Nat.toDigitsCore]
    split_ifs
    · simp only [List.all_cons, hd, Bool.true_and]
      exact hacc
    · apply ih
      simp only [List.all_cons, hd, Bool.true_and]
      exact hacc

/-- Every character of the decimal text of an integer is a digit or the minus sign. -/
theorem intToChars_chars (n : Int) :
    (intToChars n).all (fun c => c.isDigit || c == '-') = true := by
  have hmono : ∀ l : List Char, l.all Char.isDigit = true →
      l.all (fun c => c.isDigit || c == '-') = true := by
    intro l hl
    rw [List.all_eq_true] at hl ⊢
    intro c hc
    simp [hl c hc]
  have hdig : ∀ k : Nat, (Nat.toDigits 10 k).all Char.isDigit = true :=
    fun k => toDigitsCore_all (k + 1) k [] rfl
  cases n with
  | ofNat k => exact hmono _ (hdig k)
  | negSucc k =>
    simp only [intToChars, List.all_cons]
    rw [hmono _ (hdig (k + 1))]
    decide

/-- A value that `isIn` accepts for a list of such texts is one of the texts. -/
theorem isIn_str (allowed : List String) (hallowed : textOnly allowed = true) (v : JsVal)
    (h : String.mk (fieldText v) ∈ allowed) : ∃ d ∈ allowed, v = .str d := by
  have hprop := List.all_eq_true.mp hallowed _ h
  simp only [Bool.and_eq_true, bne_iff_ne, ne_eq] at hprop
  obtain ⟨⟨hany, htrue⟩, hfalse⟩ := hprop
  cases v with
  | undefined => simp [fieldText] at hany
  | null => simp [fieldText] at hany
  | bool b =>
    cases b
    · exact absurd rfl hfalse
    · exact absurd rfl htrue
  | num n =>
    obtain ⟨c, hc, hbad⟩ := List.any_eq_true.mp hany
    have hgood := List.all_eq_true.mp (intToChars_chars n.val) c hc
    simp [hgood] at hbad
  | str s => exact ⟨s, h, rfl⟩

theorem update_chain_fails (L : EmailLib) (req : Req) (h : UpdateViolation req) :
    ∃ c ∈ updateFeedbackValidation, c.passes L (req.get c.location c.field) = false := by
  rcases h with h | ⟨hp, h⟩ | ⟨hp, h⟩ | ⟨hp, h⟩ | ⟨hp, h⟩
  · refine ⟨_, List.mem_cons_self _ _, ?_⟩
    by_contra hpass
    rw [Bool.not_eq_false] at hpass
    simp only [Chain.passes, Chain.skips, stepsAccept, Step.accepts, Bool.false_and,
      Bool.false_or, Bool.and_true, Req.get] at hpass
    obtain ⟨n, hn, h1, -⟩ := isInt_parseInt _ 1 none (by decide) hpass
    refine h ⟨?_, n, hn, h1⟩
    simp only [isIntText, Bool.and_eq_true] at hpass
    exact hpass.1.1
  · refine ⟨_, List.mem_cons_of_mem _ (List.mem_cons_self _ _), ?_⟩
    rcases h with h | h
    · simp [Chain.passes, Chain.skips, stepsAccept, Step.accepts, Step.sanitize,
        fieldText_str, Req.get, hp, h]
    · simp [Chain.passes, Chain.skips, stepsAccept, Step.accepts, Step.sanitize,
        fieldText_str, Req.get, hp, h]
  · refine ⟨_, List.mem_cons_of_mem _ (List.mem_cons_of_mem _ (List.mem_cons_self _ _)), ?_⟩
    by_contra hpass
    rw [Bool.not_eq_false] at hpass
    simp only [Chain.passes, Chain.skips, stepsAccept, Step.accepts, Bool.true_and,
      Bool.and_true, Req.get, hp, decide_False, Bool.false_or, decide_eq_true_eq] at hpass
    exact h (isIn_str divisions (by decide) _ hpass)
  · refine ⟨_, List.mem_cons_of_mem _ (List.mem_cons_of_mem _ (List.mem_cons_of_mem _
      (List.mem_cons_self _ _))), ?_⟩
    by_contra hpass
    rw [Bool.not_eq_false] at hpass
    simp only [Chain.passes, Chain.skips, stepsAccept, Step.accepts, Bool.true_and,
      Bool.and_true, Req.get, hp, decide_False, Bool.false_or] at hpass
    exact h (isInt_rating _ hpass)
  · refine ⟨_, List.mem_cons_of_mem _ (List.mem_cons_of_mem _ (List.mem_cons_of_mem _
      (List.mem_cons_of_mem _ (List.mem_cons_of_mem _ (List.mem_cons_of_mem _
      (List.mem_cons_self _ _)))))), ?_⟩
    by_contra hpass
    rw [Bool.not_eq_false] at hpass
    simp only [Chain.passes, Chain.skips, stepsAccept, Step.accepts, Bool.true_and,
      Bool.and_true, Req.get, hp, decide_False, Bool.false_or, decide_eq_true_eq] at hpass
    exact h (isIn_str statuses (by decide) _ hpass)

/-- C10, as amended: an update request is rejected with 400 by `updateFeedbackValidation`
(the table unchanged, no storage call issued) when its id path parameter is not a
positive integer, or when a body field that is present breaks the rule the create
route has for it: eventName empty after trimming or longer than 255 characters, division
outside {LnT, Eeo, PR, HRD, AnD}, rating not an integer in [1,5]; or when status is
present and outside {open, in_review, resolved}. -/
theorem routePut_rejects (L : EmailLib) (db : Db) (req : Req) (h : UpdateViolation req) :
    ∃ es : List FieldError,
      routePut L db req =
        { reply := .sent { status := 400, success := false, message := "Validation failed",
                           data := .absent, errors := some es, error := none },
          db := db, calls := [] } := by
  obtain ⟨c, hc, hfail⟩ := update_chain_fails L req h
  obtain ⟨e, he, -⟩ := allErrors_entry L updateFeedbackValidation req c hc hfail
  refine ⟨allErrors L updateFeedbackValidation req, ?_⟩
  unfold routePut
  rw [guarded_rejects L _ _ db req update_keys_nodup (List.ne_nil_of_mem he)]
  rfl

/-- C10, witness: a status outside the list is rejected. -/
theorem routePut_rejects_witness :
    UpdateViolation reqBadStatus ∧
    ∃ es : List FieldError,
      routePut sampleEmailLib { rows := [sampleRow 1 10], nextId := 2 } reqBadStatus =
        { reply := .sent { status := 400, success := false, message := "Validation failed",
                           data := .absent, errors := some es, error := none },
          db := { rows := [sampleRow 1 10], nextId := 2 }, calls := [] } :=
  have hv : UpdateViolation reqBadStatus :=
    Or.inr (Or.inr (Or.inr (Or.inr ⟨by decide, by
      rintro ⟨d, hd, heq⟩
      have hs : d = "closed" := by
        have h2 : JsVal.str "closed" = JsVal.str d := heq
        injection h2 with h3
        exact h3.symm
      subst hs
      revert hd
      decide⟩)))
  ⟨hv, routePut_rejects sampleEmailLib { rows := [sampleRow 1 10], nextId := 2 }
    reqBadStatus hv⟩

/-- C10, counterexample: an update request whose body has an empty `name` and an `email`
that is no address is not rejected: the route answers 200 (the update rules have no rule
for name or email, and the handler does not write them). -/
theorem routePut_ignores_name_email :
    reqBadNameEmail.body "name" = .str "" ∧
    reqBadNameEmail.body "email" = .str "not-an-email" ∧
    sampleEmailLib.isEmail "not-an-email" = false ∧
    routePut sampleEmailLib { rows := [sampleRow 1 10], nextId := 2 } reqBadNameEmail =
      { reply := .sent { status := 200, success := true,
                         message := "Feedback updated successfully",
                         data := .record (sampleRow 1 10), errors := none, error := none },
        db := { rows := [sampleRow 1 10], nextId := 2 },
        calls := [.findUnique (some 1), .update (some 1)] } := by
  decide

/-! ## Create, then get -/

theorem digitChar_value (d : Nat) (h : d < 10) : (Nat.digitChar d).toNat - 48 = d := by
  interval_cases d <;> decide

theorem toDigitsCore_value (fuel n : Nat) (acc : List Char) (h : n < fuel) :
    (Nat.toDigitsCore 10 fuel n acc).foldl (fun a c => 10 * a + (c.toNat - 48)) 0 =
      acc.foldl (fun a c => 10 * a + (c.toNat - 48)) n := by
  induction fuel generalizing n acc with
  | zero => omega
  | succ k ih =>
    have hd : (Nat.digitChar (n % 10)).toNat - 48 = n % 10 :=
      digitChar_value _ (Nat.mod_lt _ (by decide))
    simp only [Nat.toDigitsCore]
    split_ifs with h0
    · simp only [List.foldl_cons, hd]
      congr 1
      omega
    · rw [ih (n / 10) _ (by omega)]
      simp only [List.foldl_cons, hd]
      congr 1
      omega

theorem digitsValue_toDigits (k : Nat) : digitsValue (Nat.toDigits 10 k) = k :=
  toDigitsCore_value (k + 1) k [] (Nat.lt_succ_self k)

theorem toDigitsCore_ne_nil (fuel n : Nat) (acc : List Char) :
    Nat.toDigitsCore 10 (fuel + 1) n acc ≠ [] := by
  induction fuel generalizing n acc with
  | zero =>
    simp only [Nat.toDigitsCore]
    split_ifs <;> simp
  | succ k ih =>
    rw [Nat.toDigitsCore]
    split_ifs
    · simp
    · exact ih _ _

theorem isDigits_toDigits (k : Nat) : IsDigits (Nat.toDigits 10 k) :=
  ⟨toDigitsCore_ne_nil k k [], toDigitsCore_all (k + 1) k [] rfl⟩

/-- The function `parseInt` reads an integer number as itself. -/
theorem parseInt_num (n : SafeInt) : parseInt (.num n) = some n.val := by
  unfold parseInt
  obtain ⟨z, -⟩ := n
  cases z with
  | ofNat k =>
    show parseIntChars (Nat.toDigits 10 k) = _
    rw [parseIntChars_digits (isDigits_toDigits k), digitsValue_toDigits]
    rfl
  | negSucc k =>
    show parseIntChars ('-' :: Nat.toDigits 10 (k + 1)) = _
    rw [parseIntChars_minus (isDigits_toDigits (k + 1)), digitsValue_toDigits]
    rfl

theorem allErrors_nil_passes (L : EmailLib) (cs : List Chain) (req : Req)
    (h : allErrors L cs req = []) :
    ∀ c ∈ cs, c.passes L (req.get c.location c.field) = true := by
  induction cs with
  | nil => simp
  | cons d rest ih =>
    simp only [allErrors, List.append_eq_nil] at h
    intro c hc
    rcases List.mem_cons.mp hc with rfl | hc2
    · exact (errorsAt_nil_iff L _ _).mp h.1
    · exact ih h.2 c hc2

theorem validate_none (es : List FieldError) (h : validate es = none) : es = [] := by
  unfold validate at h
  split_ifs at h with he
  exact List.isEmpty_iff.mp he

/-- The sanitized body the create handler receives, field by field. -/
theorem create_sanitized (L : EmailLib) (req : Req) :
    (runChains L createFeedbackValidation req).1.body "name" = trimmedText (req.body "name") ∧
    (runChains L createFeedbackValidation req).1.body "email" =
      L.normalizeEmail (String.mk (trimChars (fieldText (req.body "email")))) ∧
    (runChains L createFeedbackValidation req).1.body "eventName" =
      trimmedText (req.body "eventName") ∧
    (runChains L createFeedbackValidation req).1.body "division" = req.body "division" ∧
    (runChains L createFeedbackValidation req).1.body "rating" = req.body "rating" ∧
    orNull ((runChains L createFeedbackValidation req).1.body "comment") =
      optionalText (req.body "comment") ∧
    orNull ((runChains L createFeedbackValidation req).1.body "suggestion") =
      optionalText (req.body "suggestion") := by
  have hget := fun f => runChains_fst_get L createFeedbackValidation req create_keys_nodup
    .body f
  simp only [Req.get] at hget
  have hopt : ∀ v : JsVal,
      orNull (if v = .undefined then v else .str (String.mk (trimChars (fieldText v)))) =
        optionalText v := by
    intro v
    unfold optionalText trimmedText orNull
    by_cases hv : v = .undefined
    · subst hv
      simp [JsVal.truthy, fieldText_undefined, trimChars, trimEnd, trimStart]
    · by_cases ht : trimChars (fieldText v) = []
      · simp [hv, ht, JsVal.truthy]
      · have hne : String.mk (trimChars (fieldText v)) ≠ "" := by
          intro h
          apply ht
          have := congrArg String.data h
          simpa using this
        simp [hv, ht, JsVal.truthy, hne]
  refine ⟨?_, ?_, ?_, ?_, ?_, ?_, ?_⟩
  · rw [hget]; rfl
  · rw [hget]; rfl
  · rw [hget]; rfl
  · rw [hget]; rfl
  · rw [hget]; rfl
  · rw [hget, ← hopt]
    simp [valueAfter, createFeedbackValidation, Chain.key, Chain.value, Chain.skips,
      stepsValue, Step.sanitize]
  · rw [hget, ← hopt]
    simp [valueAfter, createFeedbackValidation, Chain.key, Chain.value, Chain.skips,
      stepsValue, Step.sanitize]


/-! ## Error detail and deployment mode -/

theorem devDetail_other_mode (nodeEnv : Option String) (detail : Option String)
    (h : nodeEnv ≠ some "development") : devDetail nodeEnv detail = none := by
  simp [devDetail, h]

theorem errorHandler_error_field (nodeEnv : Option String) (err : Err) :
    (errorHandler nodeEnv err).error =
      devDetail nodeEnv (if err.cls = .other then err.stack else err.message) := by
  unfold errorHandler
  cases err.cls <;> simp
  split_ifs <;> rfl

theorem errorHandler_without_stack (nodeEnv : Option String) (e1 e2 : Err)
    (hmode : nodeEnv ≠ some "development")
    (hcls : e1.cls = e2.cls) (hcode : e1.code = e2.code)
    (hstatus : e1.statusCode = e2.statusCode) (hmsg : e1.message = e2.message) :
    errorHandler nodeEnv e1 = errorHandler nodeEnv e2 := by
  unfold errorHandler
  rw [hcls, hcode, hstatus, hmsg]
  cases e2.cls <;> simp [devDetail_other_mode nodeEnv _ hmode]

/-- C11: with `NODE_ENV = 'production'`, for every error passed to `errorHandler` the
`error` field of the body is undefined, and every error that agrees with it on class,
code, statusCode and message gets the identical response, whatever the two stacks are. -/
theorem errorHandler_production (err : Err) :
    (errorHandler (some "production") err).error = none ∧
    ∀ err2 : Err, err2.cls = err.cls → err2.code = err.code →
      err2.statusCode = err.statusCode → err2.message = err.message →
      errorHandler (some "production") err2 = errorHandler (some "production") err := by
  refine ⟨?_, ?_⟩
  · rw [errorHandler_error_field]
    exact devDetail_other_mode _ _ (by decide)
  · intro err2 hcls hcode hstatus hmsg
    exact errorHandler_without_stack _ err2 err (by decide) hcls hcode hstatus hmsg

/-- C11, witness: two errors that differ in their stacks only get the same response in
production, with no `error` field, status 503 and the message of the error. -/
theorem errorHandler_production_witness :
    errorHandler (some "production") (errBoom "Error: boom at a.js:1") =
      errorHandler (some "production") (errBoom "Error: boom at b.js:2") ∧
    errorHandler (some "production") (errBoom "Error: boom at b.js:2") =
      { status := 503, success := false, message := "boom", data := .absent,
        errors := none, error := none } :=
  ⟨(errorHandler_production (errBoom "Error: boom at b.js:2")).2
      (errBoom "Error: boom at a.js:1") rfl rfl rfl rfl,
   by decide⟩

/-- C12, as amended: when `NODE_ENV` is `development`, for every error passed to
`errorHandler` the `error` field of the body holds the underlying detail: `err.message`
for storage errors and `err.stack` for all other errors; for every other value of
`NODE_ENV` (production, test, staging, unset, ...) the `error` field is undefined. -/
theorem errorHandler_detail (nodeEnv : Option String) (err : Err) :
    (nodeEnv = some "development" →
      (err.cls = .knownRequest ∨ err.cls = .validation →
        (errorHandler nodeEnv err).error = err.message) ∧
      (err.cls = .other → (errorHandler nodeEnv err).error = err.stack)) ∧
    (nodeEnv ≠ some "development" → (errorHandler nodeEnv err).error = none) := by
  refine ⟨?_, ?_⟩
  · intro hdev
    refine ⟨?_, ?_⟩
    · rintro (hc | hc) <;> simp [errorHandler_error_field, hc, devDetail, hdev]
    · intro hc
      simp [errorHandler_error_field, hc, devDetail, hdev]
  · intro hmode
    rw [errorHandler_error_field]
    exact devDetail_other_mode _ _ hmode

/-- C12, counterexample: with `NODE_ENV` equal to `test`, to `staging`, or unset, an
error that has a stack, and a storage error that has a message, are answered without an
`error` field. -/
theorem errorHandler_no_detail_in_test :
    (errBoom "Error: boom at a.js:1").stack = some "Error: boom at a.js:1" ∧
    (errorHandler (some "test") (errBoom "Error: boom at a.js:1")).error = none ∧
    (errorHandler (some "staging") (errBoom "Error: boom at a.js:1")).error = none ∧
    (errorHandler none (errBoom "Error: boom at a.js:1")).error = none ∧
    errDuplicate.message = some "Unique constraint failed on the fields: (email)" ∧
    (errorHandler (some "test") errDuplicate).error = none := by
  decide

/-! ## The table invariant -/

theorem guarded_cases (L : EmailLib) (cs : List Chain) (handler : Req → Outcome) (db : Db)
    (req : Req) :
    (∃ es, es ≠ [] ∧ guarded L cs handler db req =
      { reply := .sent (validationFailed es), db := db, calls := [] }) ∨
    (validate (runChains L cs req).2 = none ∧
      guarded L cs handler db req = handler (runChains L cs req).1) := by
  unfold guarded validate
  cases hes : (runChains L cs req).2 with
  | nil => exact Or.inr (by simp [hes])
  | cons e t => exact Or.inl ⟨e :: t, by simp, by simp [validationFailed, hes]⟩

theorem getAllFeedbacks_db (db : Db) (req : Req) : (getAllFeedbacks db req).db = db := by
  unfold getAllFeedbacks
  simp only
  split <;> rfl

theorem getFeedbackById_db (db : Db) (req : Req) : (getFeedbackById db req).db = db := by
  unfold getFeedbackById
  simp only
  split <;> rfl

theorem storeInv_empty : StoreInv Db.empty := by
  refine ⟨?_, ?_, ?_⟩ <;> simp [Db.empty]

theorem create_row_valid (L : EmailLib) (req : Req)
    (hvalid : validate (runChains L createFeedbackValidation req).2 = none)
    (id : Int) (now : Nat) :
    RowValid (newRow id now (createData (runChains L createFeedbackValidation req).1.body)) := by
  have hall : allErrors L createFeedbackValidation req = [] := by
    rw [← runChains_snd L _ req create_keys_nodup]
    exact validate_none _ hvalid
  have hr : createRatingChain.passes L (req.body "rating") = true :=
    allErrors_nil_passes L _ req hall createRatingChain (by decide)
  have hd : createDivisionChain.passes L (req.body "division") = true :=
    allErrors_nil_passes L _ req hall createDivisionChain (by decide)
  simp only [Chain.passes, Chain.skips, createRatingChain, stepsAccept, Step.accepts,
    Step.sanitize, Bool.false_and, Bool.false_or, Bool.and_true, Bool.and_eq_true] at hr
  simp only [Chain.passes, Chain.skips, createDivisionChain, stepsAccept, Step.accepts,
    Step.sanitize, Bool.false_and, Bool.false_or, Bool.and_true, Bool.and_eq_true,
    decide_eq_true_eq] at hd
  obtain ⟨-, -, -, sdiv, srating, -, -⟩ := create_sanitized L req
  refine ⟨?_, ?_, ?_⟩
  · obtain ⟨-, n, hn, h1, h5⟩ := isInt_rating _ hr.2
    exact ⟨n, by simp [newRow, createData, srating, hn], h1, h5⟩
  · obtain ⟨d, hmem, heq⟩ := isIn_str divisions (by decide) _ hd.2
    exact ⟨d, hmem, by simp [newRow, createData, sdiv, heq]⟩
  · exact ⟨"open", by decide, rfl⟩

theorem createFeedback_cases (db : Db) (now : Nat) (req : Req) :
    (createFeedback db now req =
      { reply := .forwarded .invalidArgument, db := db, calls := [.create] }) ∨
    ((createData req.body).accepted = true ∧
      createFeedback db now req =
        { reply := .sent
            { status := 201, success := true, message := "Feedback created successfully",
              data := .record (newRow db.nextId now (createData req.body)), errors := none,
              error := none },
          db := { rows := db.rows ++ [newRow db.nextId now (createData req.body)],
                  nextId := db.nextId + 1 },
          calls := [.create] }) := by
  unfold createFeedback Db.create
  by_cases hacc : (createData req.body).accepted = true
  · exact Or.inr ⟨hacc, by simp [hacc]⟩
  · exact Or.inl (by simp [hacc])

theorem createFeedback_inv (db : Db) (now : Nat) (req : Req) (h : StoreInv db)
    (hrow : RowValid (newRow db.nextId now (createData req.body))) :
    StoreInv (createFeedback db now req).db := by
  rcases createFeedback_cases db now req with hout | ⟨-, hout⟩
  · rw [hout]
    exact h
  rw [hout]
  obtain ⟨hrows, hnd, hlt⟩ := h
  have hfresh : db.nextId ∉ db.rows.map (fun r => r.id) := by
    intro hmem
    obtain ⟨r, hr, hid⟩ := List.mem_map.mp hmem
    have := hlt r hr
    omega
  refine ⟨?_, ?_, ?_⟩
  · intro r hr
    simp only [List.mem_append, List.mem_singleton] at hr
    rcases hr with hr | rfl
    · exact hrows r hr
    · exact hrow
  · simp only [List.map_append, List.map_cons, List.map_nil]
    rw [List.nodup_append]
    refine ⟨hnd, List.nodup_singleton _, ?_⟩
    intro a ha hb
    rw [List.mem_singleton] at hb
    subst hb
    exact hfresh ha
  · intro r hr
    simp only [List.mem_append, List.mem_singleton] at hr
    show r.id < db.nextId + 1
    rcases hr with hr | rfl
    · have := hlt r hr
      omega
    · simp [newRow]

theorem routePost_inv (L : EmailLib) (db : Db) (now : Nat) (req : Req) (h : StoreInv db) :
    StoreInv (routePost L db now req).db := by
  unfold routePost
  rcases guarded_cases L createFeedbackValidation (createFeedback db now) db req with
    ⟨es, -, hout⟩ | ⟨hv, hout⟩
  · rw [hout]
    exact h
  · rw [hout]
    exact createFeedback_inv db now _ h (create_row_valid L req hv db.nextId now)

theorem patchRow_valid (x : Feedback) (body : String → JsVal) (hx : RowValid x)
    (hb : UpdateBodyValid body) : RowValid (patchRow x (updateData body)) := by
  obtain ⟨hrating, hdiv, hstatus⟩ := hx
  obtain ⟨bdiv, brating, bstatus⟩ := hb
  refine ⟨?_, ?_, ?_⟩
  · rcases brating with hu | ⟨-, n, hn, h1, h5⟩
    · simpa [patchRow, updateData, whenDefined, hu] using hrating
    · have hne : body "rating" ≠ .undefined := parseInt_ne_undefined _ _ hn
      exact ⟨n, by simp [patchRow, updateData, whenDefined, hne, hn], h1, h5⟩
  · rcases bdiv with hu | ⟨d, hmem, heq⟩
    · simpa [patchRow, updateData, whenDefined, hu] using hdiv
    · exact ⟨d, hmem, by simp [patchRow, updateData, whenDefined, heq]⟩
  · rcases bstatus with hu | ⟨d, hmem, heq⟩
    · simpa [patchRow, updateData, whenDefined, hu] using hstatus
    · exact ⟨d, hmem, by simp [patchRow, updateData, whenDefined, heq]⟩

theorem updateFeedback_db (db : Db) (req : Req) :
    (updateFeedback db req).db = db ∨
    ∃ i : Int, (updateFeedback db req).db =
      { rows := db.rows.map (fun x => if x.id == i then patchRow x (updateData req.body) else x),
        nextId := db.nextId } := by
  unfold updateFeedback
  cases hid : parseInt (req.params "id") with
  | none => exact Or.inl (by simp [Db.findUnique])
  | some i =>
    cases hf : db.rows.find? (fun r => r.id == i) with
    | none => exact Or.inl (by simp [Db.findUnique, hf])
    | some r =>
      by_cases hacc : (updateData req.body).accepted = true
      · exact Or.inr ⟨i, by simp [Db.findUnique, Db.update, hf, hacc]⟩
      · exact Or.inl (by simp [Db.findUnique, Db.update, hf, hacc])

theorem updateFeedback_inv (db : Db) (req : Req) (h : StoreInv db)
    (hb : UpdateBodyValid req.body) : StoreInv (updateFeedback db req).db := by
  rcases updateFeedback_db db req with hsame | ⟨i, hnew⟩
  · rw [hsame]
    exact h
  · rw [hnew]
    obtain ⟨hrows, hnd, hlt⟩ := h
    have hids : (db.rows.map
        (fun x => if x.id == i then patchRow x (updateData req.body) else x)).map
        (fun r => r.id) = db.rows.map (fun r => r.id) := by
      rw [List.map_map]
      apply List.map_congr_left
      intro x _
      simp only [Function.comp]
      split_ifs <;> rfl
    refine ⟨?_, ?_, ?_⟩
    · intro r hr
      obtain ⟨x, hx, rfl⟩ := List.mem_map.mp hr
      split_ifs
      · exact patchRow_valid x _ (hrows x hx) hb
      · exact hrows x hx
    · show (List.map (fun r : Feedback => r.id) _).Nodup
      rw [hids]
      exact hnd
    · intro r hr
      obtain ⟨x, hx, rfl⟩ := List.mem_map.mp hr
      show _ < db.nextId
      split_ifs
      · exact hlt x hx
      · exact hlt x hx

theorem update_body_valid (L : EmailLib) (req : Req)
    (hvalid : validate (runChains L updateFeedbackValidation req).2 = none) :
    UpdateBodyValid (runChains L updateFeedbackValidation req).1.body := by
  have hall : allErrors L updateFeedbackValidation req = [] := by
    rw [← runChains_snd L _ req update_keys_nodup]
    exact validate_none _ hvalid
  have hget := fun f => runChains_fst_get L updateFeedbackValidation req update_keys_nodup
    .body f
  simp only [Req.get] at hget
  have sdiv : (runChains L updateFeedbackValidation req).1.body "division" =
      req.body "division" := by
    rw [hget]
    simp [valueAfter, updateFeedbackValidation, Chain.key, Chain.value, Chain.skips,
      stepsValue, Step.sanitize]
  have srating : (runChains L updateFeedbackValidation req).1.body "rating" =
      req.body "rating" := by
    rw [hget]
    simp [valueAfter, updateFeedbackValidation, Chain.key, Chain.value, Chain.skips,
      stepsValue, Step.sanitize]
  have sstatus : (runChains L updateFeedbackValidation req).1.body "status" =
      req.body "status" := by
    rw [hget]
    simp [valueAfter, updateFeedbackValidation, Chain.key, Chain.value, Chain.skips,
      stepsValue, Step.sanitize]
  have hd : updateDivisionChain.passes L (req.body "division") = true :=
    allErrors_nil_passes L _ req hall updateDivisionChain (by decide)
  have hr : updateRatingChain.passes L (req.body "rating") = true :=
    allErrors_nil_passes L _ req hall updateRatingChain (by decide)
  have hs : updateStatusChain.passes L (req.body "status") = true :=
    allErrors_nil_passes L _ req hall updateStatusChain (by decide)
  simp only [Chain.passes, Chain.skips, updateDivisionChain, stepsAccept, Step.accepts,
    Bool.true_and, Bool.and_true, Bool.or_eq_true, decide_eq_true_eq] at hd
  simp only [Chain.passes, Chain.skips, updateRatingChain, stepsAccept, Step.accepts,
    Bool.true_and, Bool.and_true, Bool.or_eq_true, decide_eq_true_eq] at hr
  simp only [Chain.passes, Chain.skips, updateStatusChain, stepsAccept, Step.accepts,
    Bool.true_and, Bool.and_true, Bool.or_eq_true, decide_eq_true_eq] at hs
  rw [UpdateBodyValid, sdiv, srating, sstatus]
  refine ⟨?_, ?_, ?_⟩
  · exact hd.imp id (fun h => isIn_str divisions (by decide) _ h)
  · exact hr.imp id (fun h => isInt_rating _ h)
  · exact hs.imp id (fun h => isIn_str statuses (by decide) _ h)

theorem routePut_inv (L : EmailLib) (db : Db) (req : Req) (h : StoreInv db) :
    StoreInv (routePut L db req).db := by
  unfold routePut
  rcases guarded_cases L updateFeedbackValidation (updateFeedback db) db req with
    ⟨es, -, hout⟩ | ⟨hv, hout⟩
  · rw [hout]
    exact h
  · rw [hout]
    exact updateFeedback_inv db _ h (update_body_valid L req hv)

theorem deleteFeedback_db (db : Db) (req : Req) :
    (deleteFeedback db req).db = db ∨
    ∃ i : Int, (deleteFeedback db req).db =
      { rows := db.rows.filter (fun x => !(x.id == i)), nextId := db.nextId } := by
  unfold deleteFeedback
  cases hid : parseInt (req.params "id") with
  | none => exact Or.inl (by simp [Db.findUnique])
  | some i =>
    cases hf : db.rows.find? (fun r => r.id == i) with
    | none => exact Or.inl (by simp [Db.findUnique, hf])
    | some r => exact Or.inr ⟨i, by simp [Db.findUnique, Db.delete, hf]⟩

theorem deleteFeedback_inv (db : Db) (req : Req) (h : StoreInv db) :
    StoreInv (deleteFeedback db req).db := by
  rcases deleteFeedback_db db req with hsame | ⟨i, hnew⟩
  · rw [hsame]
    exact h
  · rw [hnew]
    obtain ⟨hrows, hnd, hlt⟩ := h
    refine ⟨?_, ?_, ?_⟩
    · intro r hr
      exact hrows r (List.mem_filter.mp hr).1
    · exact hnd.sublist ((List.filter_sublist _).map _)
    · intro r hr
      exact hlt r (List.mem_filter.mp hr).1

theorem routeDelete_inv (L : EmailLib) (db : Db) (req : Req) (h : StoreInv db) :
    StoreInv (routeDelete L db req).db := by
  unfold routeDelete
  rcases guarded_cases L idParamValidation (deleteFeedback db) db req with
    ⟨es, -, hout⟩ | ⟨-, hout⟩
  · rw [hout]
    exact h
  · rw [hout]
    exact deleteFeedback_inv db _ h

theorem routeGetById_db (L : EmailLib) (db : Db) (req : Req) :
    (routeGetById L db req).db = db := by
  unfold routeGetById
  rcases guarded_cases L idParamValidation (getFeedbackById db) db req with
    ⟨es, -, hout⟩ | ⟨-, hout⟩
  · rw [hout]
  · rw [hout]
    exact getFeedbackById_db db _

theorem dispatch_inv (L : EmailLib) (db : Db) (r : ApiRequest) (h : StoreInv db) :
    StoreInv (dispatch L db r).db := by
  cases r with
  | list req =>
    show StoreInv (getAllFeedbacks db req).db
    rw [getAllFeedbacks_db]
    exact h
  | get req =>
    show StoreInv (routeGetById L db req).db
    rw [routeGetById_db]
    exact h
  | create now req => exact routePost_inv L db now req h
  | update req => exact routePut_inv L db req h
  | delete req => exact routeDelete_inv L db req h

theorem runRequests_inv (L : EmailLib) (db : Db) (rs : List ApiRequest) (h : StoreInv db) :
    StoreInv (runRequests L db rs) := by
  induction rs generalizing db with
  | nil => exact h
  | cons r rest ih => exact ih _ (dispatch_inv L db r h)

theorem routePost_created_open (L : EmailLib) (db : Db) (now : Nat) (req : Req)
    (res : Response) (hsent : (routePost L db now req).reply = .sent res)
    (hstatus : res.status = 201) :
    ∃ row : Feedback, res.data = .record row ∧ row.status = .str "open" ∧
      row ∈ (routePost L db now req).db.rows := by
  unfold routePost at hsent ⊢
  rcases guarded_cases L createFeedbackValidation (createFeedback db now) db req with
    ⟨es, -, hout⟩ | ⟨-, hout⟩
  · rw [hout] at hsent
    simp only [Reply.sent.injEq] at hsent
    subst hsent
    simp [validationFailed] at hstatus
  · rw [hout] at hsent ⊢
    rcases createFeedback_cases db now (runChains L createFeedbackValidation req).1 with
      hc | ⟨-, hc⟩
    · rw [hc] at hsent
      simp at hsent
    · rw [hc] at hsent ⊢
      simp only [Reply.sent.injEq] at hsent
      subst hsent
      exact ⟨_, rfl, rfl, by simp⟩

/-- C13: starting from the empty table, after any sequence of requests to the five routes
(list, get, create, update, delete), each passing through the validation chain of its
route and then its handler, every stored row has an integer rating in [1,5], a division
in {LnT, Eeo, PR, HRD, AnD} and a status in {open, in_review, resolved}, and no two rows
share an id; and whenever the create route then answers 201, whatever the body holds, the
row it returns and stores has status `open`. -/
theorem store_invariant (L : EmailLib) (rs : List ApiRequest) :
    (∀ r ∈ (runRequests L Db.empty rs).rows,
      (∃ n : Int, r.rating = some n ∧ 1 ≤ n ∧ n ≤ 5) ∧
      (∃ d ∈ divisions, r.division = .str d) ∧
      (∃ d ∈ statuses, r.status = .str d)) ∧
    ((runRequests L Db.empty rs).rows.map (fun r => r.id)).Nodup ∧
    (∀ r1 ∈ (runRequests L Db.empty rs).rows, ∀ r2 ∈ (runRequests L Db.empty rs).rows,
      r1.id = r2.id → r1 = r2) ∧
    (∀ (now : Nat) (req : Req) (res : Response),
      (routePost L (runRequests L Db.empty rs) now req).reply = .sent res →
      res.status = 201 →
      ∃ row : Feedback, res.data = .record row ∧ row.status = .str "open" ∧
        row ∈ (routePost L (runRequests L Db.empty rs) now req).db.rows) := by
  obtain ⟨hrows, hnd, -⟩ := runRequests_inv L Db.empty rs storeInv_empty
  refine ⟨hrows, hnd, ?_, ?_⟩
  · intro r1 h1 r2 h2 hid
    exact List.inj_on_of_nodup_map hnd h1 h2 hid
  · intro now req res hsent hstatus
    exact routePost_created_open L _ now req res hsent hstatus

/-- C13, witness: two creates (the second with `status: "resolved"` and an `id` in its
body), a refused update (rating 9), an accepted update and a delete leave one valid row;
the second create answered 201 with status `open` and the generated id 2. -/
theorem store_invariant_witness :
    runRequests sampleEmailLib Db.empty sampleRequests =
      { rows := [{ id := 1, name := .str "John Doe", email := .str "john@x.com",
                   eventName := .str "Workshop", division := .str "LnT", rating := some 2,
                   comment := .null, suggestion := .null, createdAt := 7,
                   status := .str "in_review" }],
        nextId := 3 } ∧
    (routePost sampleEmailLib (runRequests sampleEmailLib Db.empty [.create 7 reqJohn]) 8
        reqWithStatus).reply =
      .sent { status := 201, success := true, message := "Feedback created successfully",
              data := .record
                { id := 2, name := .str "John Doe", email := .str "john@x.com",
                  eventName := .str "Workshop", division := .str "PR", rating := some 4,
                  comment := .null, suggestion := .null, createdAt := 8,
                  status := .str "open" },
              errors := none, error := none } ∧
    ((runRequests sampleEmailLib Db.empty sampleRequests).rows.map (fun r => r.id)).Nodup :=
  ⟨by decide, by decide, (store_invariant sampleEmailLib sampleRequests).2.1⟩

/-! ## Create, then get: the round trip -/

theorem isNullableText_optionalText (v : JsVal) : isNullableText (optionalText v) = true := by
  unfold optionalText trimmedText
  split_ifs <;> rfl

/-- The data of a create request that passed validation is accepted by storage when the
normalised e-mail is a text. -/
theorem create_data_accepted (L : EmailLib) (req : Req)
    (hvalid : validate (runChains L createFeedbackValidation req).2 = none)
    (hemail : ∃ e : String,
      L.normalizeEmail (String.mk (trimChars (fieldText (req.body "email")))) = .str e) :
    (createData (runChains L createFeedbackValidation req).1.body).accepted = true := by
  obtain ⟨hrating, hdiv, -⟩ := create_row_valid L req hvalid 0 0
  obtain ⟨n, hn, -, -⟩ := hrating
  obtain ⟨d, -, hd⟩ := hdiv
  obtain ⟨e, he⟩ := hemail
  obtain ⟨sname, semail, sevent, -, -, scomment, ssugg⟩ := create_sanitized L req
  simp only [newRow] at hn hd
  simp only [CreateData.accepted, Bool.and_eq_true]
  refine ⟨⟨⟨⟨⟨⟨?_, ?_⟩, ?_⟩, ?_⟩, ?_⟩, ?_⟩, ?_⟩
  · simp [createData, sname, trimmedText, isText]
  · simp [createData, semail, he, isText]
  · simp [createData, sevent, trimmedText, isText]
  · rw [hd]
    rfl
  · rw [hn]
    rfl
  · simp only [createData, scomment]
    exact isNullableText_optionalText _
  · simp only [createData, ssugg]
    exact isNullableText_optionalText _

/-- C7, as amended: for every create request that passes `createFeedbackValidation` and
whose normalised e-mail is a text, on a table whose ids are all different from the next
id, the create route answers 201 with a row, and `getFeedbackById` on the returned id
then answers 200 with the same row, whose fields are the submitted values as the route
sanitizes them: name and eventName trimmed, email trimmed and normalised, division as
submitted, rating the integer (between 1 and 5) that `parseInt` reads from the submitted
value, comment and suggestion trimmed, or null when absent or empty; id, createdAt and
status (`open`) are assigned by the server. -/
theorem create_then_get (L : EmailLib) (db : Db) (now : Nat) (req req2 : Req)
    (hvalid : validate (runChains L createFeedbackValidation req).2 = none)
    (hemail : ∃ e : String,
      L.normalizeEmail (String.mk (trimChars (fieldText (req.body "email")))) = .str e)
    (hfresh : ∀ r ∈ db.rows, r.id ≠ db.nextId)
    (hid : parseInt (req2.params "id") = some db.nextId) :
    ∃ (row : Feedback) (n : Int),
      (routePost L db now req).reply =
        .sent { status := 201, success := true, message := "Feedback created successfully",
                data := .record row, errors := none, error := none } ∧
      (getFeedbackById (routePost L db now req).db req2).reply =
        .sent { status := 200, success := true, message := "Feedback retrieved successfully",
                data := .record row, errors := none, error := none } ∧
      row.id = db.nextId ∧ row.createdAt = now ∧ row.status = .str "open" ∧
      row.name = trimmedText (req.body "name") ∧
      row.email = L.normalizeEmail (String.mk (trimChars (fieldText (req.body "email")))) ∧
      row.eventName = trimmedText (req.body "eventName") ∧
      row.division = req.body "division" ∧
      row.rating = some n ∧ parseInt (req.body "rating") = some n ∧ 1 ≤ n ∧ n ≤ 5 ∧
      row.comment = optionalText (req.body "comment") ∧
      row.suggestion = optionalText (req.body "suggestion") ∧
      (∀ s : String, req.body "name" = .str s → trimChars s.data = s.data →
        row.name = .str s) ∧
      (∀ s : String, req.body "eventName" = .str s → trimChars s.data = s.data →
        row.eventName = .str s) ∧
      (∀ k : SafeInt, req.body "rating" = .num k → row.rating = some k.val) := by
  have hall : allErrors L createFeedbackValidation req = [] := by
    rw [← runChains_snd L _ req create_keys_nodup]
    exact validate_none _ hvalid
  have hrating : createRatingChain.passes L (req.body "rating") = true :=
    allErrors_nil_passes L _ req hall createRatingChain (by decide)
  simp only [Chain.passes, Chain.skips, createRatingChain, stepsAccept, Step.accepts,
    Step.sanitize, Bool.false_and, Bool.false_or, Bool.and_true, Bool.and_eq_true] at hrating
  obtain ⟨-, n, hn, h1, h5⟩ := isInt_rating _ hrating.2
  obtain ⟨sname, semail, sevent, sdiv, srating, scomment, ssugg⟩ := create_sanitized L req
  have hacc := create_data_accepted L req hvalid hemail
  have hroute : routePost L db now req =
      { reply := .sent
          { status := 201, success := true, message := "Feedback created successfully",
            data := .record (newRow db.nextId now
              (createData (runChains L createFeedbackValidation req).1.body)),
            errors := none, error := none },
        db := { rows := db.rows ++ [newRow db.nextId now
                  (createData (runChains L createFeedbackValidation req).1.body)],
                nextId := db.nextId + 1 },
        calls := [.create] } := by
    unfold routePost
    rw [guarded_accepts L _ _ db req create_keys_nodup hall]
    rcases createFeedback_cases db now (runChains L createFeedbackValidation req).1 with
      hc | ⟨-, hc⟩
    · exfalso
      simp [createFeedback, Db.create, hacc] at hc
    · exact hc
  refine ⟨newRow db.nextId now (createData (runChains L createFeedbackValidation req).1.body),
    n, ?_, ?_, rfl, rfl, rfl, ?_, ?_, ?_, ?_, ?_, hn, h1, h5, ?_, ?_, ?_, ?_, ?_⟩
  · rw [hroute]
  · rw [hroute]
    have hfind : (db.rows ++ [newRow db.nextId now
        (createData (runChains L createFeedbackValidation req).1.body)]).find?
        (fun r => r.id == db.nextId) =
        some (newRow db.nextId now
          (createData (runChains L createFeedbackValidation req).1.body)) := by
      rw [List.find?_append, find_absent db.rows db.nextId hfresh]
      simp [newRow]
    simp [getFeedbackById, hid, Db.findUnique, hfind]
  · simp [newRow, createData, sname]
  · simp [newRow, createData, semail]
  · simp [newRow, createData, sevent]
  · simp [newRow, createData, sdiv]
  · simp [newRow, createData, srating, hn]
  · simp [newRow, createData, scomment]
  · simp [newRow, createData, ssugg]
  · intro s hs ht
    simp [newRow, createData, sname, hs, trimmedText, fieldText_str, ht]
  · intro s hs ht
    simp [newRow, createData, sevent, hs, trimmedText, fieldText_str, ht]
  · intro k hk
    simp [newRow, createData, srating, hk, parseInt_num]

/-- C7, witness: the spec example `{name: "John Doe", email: "john@x.com", eventName:
"Workshop", division: "LnT", rating: 5}` passes validation, is answered 201, and is
returned by a get on id 1 with `status` `open` and `rating` 5. -/
theorem create_then_get_witness :
    validate (runChains sampleEmailLib createFeedbackValidation reqJohn).2 = none ∧
    ∃ row : Feedback,
      (routePost sampleEmailLib Db.empty 7 reqJohn).reply =
        .sent { status := 201, success := true, message := "Feedback created successfully",
                data := .record row, errors := none, error := none } ∧
      (getFeedbackById (routePost sampleEmailLib Db.empty 7 reqJohn).db
          (reqWithId "1" [])).reply =
        .sent { status := 200, success := true, message := "Feedback retrieved successfully",
                data := .record row, errors := none, error := none } ∧
      row.status = .str "open" ∧ row.rating = some 5 ∧ row.name = .str "John Doe" := by
  have hv : validate (runChains sampleEmailLib createFeedbackValidation reqJohn).2 = none := by
    decide
  obtain ⟨row, n, h1, h2, -, -, h5, -, -, -, -, -, -, -, -, -, -, hname, -, hrating⟩ :=
    create_then_get sampleEmailLib Db.empty 7 reqJohn (reqWithId "1" []) hv
      ⟨"john@x.com", by decide⟩ (by simp [Db.empty]) (by decide)
  exact ⟨hv, row, h1, h2, h5, hrating ⟨5, by decide⟩ (by decide),
    hname "John Doe" (by decide) (by decide)⟩

/-- C7, counterexample: a create request whose name is `" John Doe "` passes validation
and is answered 201; the get on the returned id 1 answers 200 with the name `"John Doe"`,
which is not the submitted value. -/
theorem create_then_get_trims_name :
    validate (runChains sampleEmailLib createFeedbackValidation reqPaddedName).2 = none ∧
    reqPaddedName.body "name" = .str " John Doe " ∧
    (getFeedbackById (routePost sampleEmailLib Db.empty 7 reqPaddedName).db
        (reqWithId "1" [])).reply =
      .sent { status := 200, success := true, message := "Feedback retrieved successfully",
              data := .record
                { id := 1, name := .str "John Doe", email := .str "john@x.com",
                  eventName := .str "Workshop", division := .str "LnT", rating := some 5,
                  comment := .null, suggestion := .null, createdAt := 7,
                  status := .str "open" },
              errors := none, error := none } ∧
    JsVal.str "John Doe" ≠ reqPaddedName.body "name" := by
  decide

/-! ## Update through the route -/

/-- The sanitized request the update handler receives, field by field. -/
theorem update_sanitized (L : EmailLib) (req : Req) :
    (runChains L updateFeedbackValidation req).1.params "id" = req.params "id" ∧
    (runChains L updateFeedbackValidation req).1.body "eventName" =
      (if req.body "eventName" = .undefined then .undefined
       else trimmedText (req.body "eventName")) ∧
    (runChains L updateFeedbackValidation req).1.body "division" = req.body "division" ∧
    (runChains L updateFeedbackValidation req).1.body "rating" = req.body "rating" ∧
    (runChains L updateFeedbackValidation req).1.body "comment" =
      (if req.body "comment" = .undefined then .undefined
       else trimmedText (req.body "comment")) ∧
    (runChains L updateFeedbackValidation req).1.body "suggestion" =
      (if req.body "suggestion" = .undefined then .undefined
       else trimmedText (req.body "suggestion")) ∧
    (runChains L updateFeedbackValidation req).1.body "status" = req.body "status" := by
  have hb := fun f => runChains_fst_get L updateFeedbackValidation req update_keys_nodup
    .body f
  have hp := runChains_fst_get L updateFeedbackValidation req update_keys_nodup .params "id"
  simp only [Req.get] at hb hp
  have htrim : ∀ v : JsVal,
      (if v = .undefined then v else .str (String.mk (trimChars (fieldText v)))) =
        (if v = .undefined then .undefined else trimmedText v) := by
    intro v
    by_cases hv : v = .undefined
    · simp [hv]
    · simp [hv, trimmedText]
  refine ⟨?_, ?_, ?_, ?_, ?_, ?_, ?_⟩
  · rw [hp]
    rfl
  · rw [hb, ← htrim]
    simp [valueAfter, updateFeedbackValidation, Chain.key, Chain.value, Chain.skips,
      stepsValue, Step.sanitize]
  · rw [hb]
    simp [valueAfter, updateFeedbackValidation, Chain.key, Chain.value, Chain.skips,
      stepsValue, Step.sanitize]
  · rw [hb]
    simp [valueAfter, updateFeedbackValidation, Chain.key, Chain.value, Chain.skips,
      stepsValue, Step.sanitize]
  · rw [hb, ← htrim]
    simp [valueAfter, updateFeedbackValidation, Chain.key, Chain.value, Chain.skips,
      stepsValue, Step.sanitize]
  · rw [hb, ← htrim]
    simp [valueAfter, updateFeedbackValidation, Chain.key, Chain.value, Chain.skips,
      stepsValue, Step.sanitize]
  · rw [hb]
    simp [valueAfter, updateFeedbackValidation, Chain.key, Chain.value, Chain.skips,
      stepsValue, Step.sanitize]

theorem whenDefined_trimmed_text (v : JsVal) :
    (whenDefined (if v = .undefined then .undefined else trimmedText v)).all isText = true ∧
    (whenDefined (if v = .undefined then .undefined else trimmedText v)).all isNullableText
      = true := by
  by_cases hv : v = .undefined
  · simp [hv, whenDefined]
  · simp [hv, whenDefined, trimmedText, isText, isNullableText]

/-- The data of an update request that passed validation is accepted by storage. -/
theorem update_data_accepted (L : EmailLib) (req : Req)
    (hvalid : validate (runChains L updateFeedbackValidation req).2 = none) :
    (updateData (runChains L updateFeedbackValidation req).1.body).accepted = true := by
  obtain ⟨hdiv, hrating, hstatus⟩ := update_body_valid L req hvalid
  obtain ⟨-, sevent, -, -, scomment, ssugg, -⟩ := update_sanitized L req
  simp only [UpdateData.accepted, updateData, Bool.and_eq_true]
  refine ⟨⟨⟨⟨⟨?_, ?_⟩, ?_⟩, ?_⟩, ?_⟩, ?_⟩
  · rw [sevent]
    exact (whenDefined_trimmed_text _).1
  · rcases hdiv with hu | ⟨d, -, hd⟩
    · simp [hu, whenDefined]
    · simp [hd, whenDefined, isText]
  · rcases hrating with hu | ⟨-, n, hn, -, -⟩
    · simp [hu, whenDefined]
    · simp [whenDefined, parseInt_ne_undefined _ _ hn, hn]
  · rw [scomment]
    exact (whenDefined_trimmed_text _).2
  · rw [ssugg]
    exact (whenDefined_trimmed_text _).2
  · rcases hstatus with hu | ⟨d, -, hd⟩
    · simp [hu, whenDefined]
    · simp [hd, whenDefined, isText]

theorem updatedAsSpecified_sanitized (L : EmailLib) (req : Req) (r : Feedback) :
    updatedAsSpecified (runChains L updateFeedbackValidation req).1.body r =
      updatedByRoute req.body r := by
  obtain ⟨-, sevent, sdiv, srating, scomment, ssugg, sstatus⟩ := update_sanitized L req
  simp only [updatedAsSpecified, updatedByRoute, sevent, sdiv, srating, scomment, ssugg,
    sstatus]
  congr 1 <;> split_ifs <;> simp_all [trimmedText]

theorem updatedByRoute_empty (body : String → JsVal) (r : Feedback)
    (h : ∀ f ∈ ["eventName", "division", "rating", "comment", "suggestion", "status"],
      body f = .undefined) : updatedByRoute body r = r := by
  simp only [List.mem_cons, List.mem_singleton, forall_eq_or_imp, forall_eq,
    List.not_mem_nil, false_implies, implies_true, and_true] at h
  obtain ⟨h1, h2, h3, h4, h5, h6⟩ := h
  simp [updatedByRoute, h1, h2, h3, h4, h5, h6]

/-- C2, as amended: for every table, every row `r` that `findUnique` returns for the id
of the request and every update request that passes `updateFeedbackValidation` (the
requests that reach `updateFeedback`), `updateFeedback` runs on the sanitized request
and answers 200 with the row in which exactly the fields present in the body were
replaced, by the value the validation chain hands over (eventName, comment and
suggestion trimmed, division and status as submitted, rating as its integer value,
which is between 1 and 5), and every other field, id, name, email and createdAt
included, kept its value; the table afterwards is the old one with the rows of that id
replaced in this way and every other row unchanged; and when the body has none of the
six fields the table is unchanged and the answer is still 200 with the row as it
was. -/
theorem updateFeedback_frame (L : EmailLib) (db : Db) (req : Req) (i : Int) (r : Feedback)
    (hvalid : validate (runChains L updateFeedbackValidation req).2 = none)
    (hid : parseInt (req.params "id") = some i)
    (hrow : db.rows.find? (fun x => x.id == i) = some r) :
    routePut L db req = updateFeedback db (runChains L updateFeedbackValidation req).1 ∧
    (routePut L db req).reply =
      .sent { status := 200, success := true, message := "Feedback updated successfully",
              data := .record (updatedByRoute req.body r), errors := none,
              error := none } ∧
    (routePut L db req).db.rows =
      db.rows.map (fun x => if x.id = i then updatedByRoute req.body x else x) ∧
    (routePut L db req).db.nextId = db.nextId ∧
    (∀ x ∈ db.rows, x.id ≠ i → x ∈ (routePut L db req).db.rows) ∧
    (req.body "rating" ≠ .undefined →
      ∃ n : Int, parseInt (req.body "rating") = some n ∧ 1 ≤ n ∧ n ≤ 5) ∧
    ((∀ f ∈ ["eventName", "division", "rating", "comment", "suggestion", "status"],
        req.body f = .undefined) →
      (routePut L db req).db = db ∧
      (routePut L db req).reply =
        .sent { status := 200, success := true, message := "Feedback updated successfully",
                data := .record r, errors := none, error := none }) := by
  have hall : allErrors L updateFeedbackValidation req = [] := by
    rw [← runChains_snd L _ req update_keys_nodup]
    exact validate_none _ hvalid
  have hroute : routePut L db req =
      updateFeedback db (runChains L updateFeedbackValidation req).1 := by
    unfold routePut
    exact guarded_accepts L _ _ db req update_keys_nodup hall
  obtain ⟨sid, -, -, srating, -, -, -⟩ := update_sanitized L req
  have hout : routePut L db req =
      { reply := .sent
          { status := 200, success := true, message := "Feedback updated successfully",
            data := .record (updatedByRoute req.body r), errors := none, error := none },
        db := { rows := db.rows.map
                  (fun x => if x.id = i then updatedByRoute req.body x else x),
                nextId := db.nextId },
        calls := [.findUnique (some i), .update (some i)] } := by
    rw [hroute, updateFeedback_accepted db _ i r (by rw [sid]; exact hid) hrow
      (update_data_accepted L req hvalid)]
    simp only [updatedAsSpecified_sanitized]
  refine ⟨hroute, ?_, ?_, ?_, ?_, ?_, ?_⟩
  · rw [hout]
  · rw [hout]
  · rw [hout]
  · rw [hout]
    intro x hx hne
    exact List.mem_map.mpr ⟨x, hx, by simp [hne]⟩
  · intro hpresent
    obtain ⟨-, hrating, -⟩ := update_body_valid L req hvalid
    rw [srating] at hrating
    rcases hrating with hu | ⟨-, n, hn, h1, h5⟩
    · exact absurd hu hpresent
    · exact ⟨n, hn, h1, h5⟩
  · intro hempty
    have hmap : db.rows.map (fun x => if x.id = i then updatedByRoute req.body x else x)
        = db.rows := by
      conv_rhs => rw [← List.map_id db.rows]
      apply List.map_congr_left
      intro x _
      simp [updatedByRoute_empty req.body x hempty]
    rw [hout]
    simp [hmap, updatedByRoute_empty req.body r hempty]

/-- C2, witness: a request with a padded eventName, a rating and a status passes
validation; on the row with id 1 of a table of two rows it writes the trimmed eventName,
the rating 3 and the status, and nothing else. -/
theorem updateFeedback_frame_witness :
    validate (runChains sampleEmailLib updateFeedbackValidation reqThreeFields).2 = none ∧
    (routePut sampleEmailLib { rows := [sampleRow 1 10, sampleRow 2 20], nextId := 3 }
        reqThreeFields).db.rows =
      [{ sampleRow 1 10 with eventName := .str "Expo", rating := some 3,
                             status := .str "resolved" }, sampleRow 2 20] ∧
    (routePut sampleEmailLib { rows := [sampleRow 1 10, sampleRow 2 20], nextId := 3 }
        reqThreeFields).reply =
      .sent { status := 200, success := true, message := "Feedback updated successfully",
              data := .record (updatedByRoute reqThreeFields.body (sampleRow 1 10)),
              errors := none, error := none } :=
  ⟨by decide, by decide,
   (updateFeedback_frame sampleEmailLib
      { rows := [sampleRow 1 10, sampleRow 2 20], nextId := 3 } reqThreeFields 1
      (sampleRow 1 10) (by decide) (by decide) (by decide)).2.1⟩

/-- C2, counterexample: an update body whose rating is the word `abc` has the field
`rating`, yet the rating is not written. Handed to `updateFeedback`, the storage client
refuses the `NaN` rating and the handler forwards the error, the table unchanged; sent
through the route, the request is answered 400 by the validation chain, the table
unchanged. -/
theorem updateFeedback_rating_not_written :
    reqRatingWord.body "rating" = .str "abc" ∧
    updateFeedback { rows := [sampleRow 1 10], nextId := 2 } reqRatingWord =
      { reply := .forwarded .invalidArgument,
        db := { rows := [sampleRow 1 10], nextId := 2 },
        calls := [.findUnique (some 1), .update (some 1)] } ∧
    routePut sampleEmailLib { rows := [sampleRow 1 10], nextId := 2 } reqRatingWord =
      { reply := .sent
          { status := 400, success := false, message := "Validation failed", data := .absent,
            errors := some [{ path := "rating",
                              msg := "Rating must be an integer between 1 and 5",
                              value := .str "abc", location := .body }],
            error := none },
        db := { rows := [sampleRow 1 10], nextId := 2 }, calls := [] } ∧
    (sampleRow 1 10).rating = some 5 := by
  decide

end RollingBE
